import Mathlib

/-!
# Inventory transaction ledger, threshold monitor and history query

A verification development for the inventory application.  Code of the client
pages (`History.jsx`, `LowStock.jsx`, `ManageStock.jsx`), of the route guards
and the auth context (`App.jsx`, `AuthContext.jsx`) and of the public routes
(`publicRoutes.js`) is embedded from its source.  The transaction ledger
and the threshold monitor run on the server and are reached from the pages only
through `componentService`; their definitions below follow the specification,
and each says so in its doc comment.
-/

namespace Inventory

/-! ## Data model -/

/-- Modelled from the spec: the log kinds of `TransactionLogEntry.action`
(spec §3); the same six values are the options of `actions` in `History.jsx`. -/
inductive Action where
  | inward
  | outward
  | adjustment
  | created
  | updated
  | deleted
deriving DecidableEq, Repr

/-- Modelled from the spec: the `Component` record of spec §3, with the fields
the ledger reads and writes.  The field names are those the pages read
(`_id`, `quantity`, `critical_low_threshold`).  Quantities are unbounded
integers; the bound `0 ≤ quantity` is an invariant to be proved, not a type. -/
structure Component where
  id : Nat
  quantity : Int
  critical_low_threshold : Int
deriving DecidableEq, Repr

/-- Modelled from the spec: the append-only `TransactionLogEntry` of spec §3
(the creation time is left out: the ledger model keeps the entries in commit
order). -/
structure TransactionLogEntry where
  component : Nat
  action : Action
  previous_quantity : Int
  new_quantity : Int
  quantity_changed : Int
  reason : String
  actor : String
deriving DecidableEq, Repr

/-- Modelled from the spec: the `type` of a produced event (spec §6). -/
inductive EventType where
  | low_stock
  | restocked
deriving DecidableEq, Repr

/-- The notification priorities, as `getPriorityColor` in `Notifications.jsx`
distinguishes them. -/
inductive Priority where
  | critical
  | high
  | medium
  | low
deriving DecidableEq, Repr

/-- Modelled from the spec: the `ThresholdCrossingEvent` of spec §3 in the
shape handed to the notification dispatcher (spec §6).  The spec gives a
priority to `low_stock` events only, so the field is optional. -/
structure ThresholdCrossingEvent where
  componentId : Nat
  type : EventType
  priority : Option Priority
  quantity : Int
  threshold : Int
deriving DecidableEq, Repr

/-- Modelled from the spec: the failures of a ledger operation (spec §4.1 and
§7).  `ConcurrencyConflict` and `StorageFailure` concern the storage engine and
do not arise over the in-memory store modelled here. -/
inductive LedgerError where
  | NotFound
  | InvalidArgument
  | InsufficientStock
deriving DecidableEq, Repr

/-- Modelled from the spec: the persisted state of spec §6 (one record per
component, one append-only record per log entry, oldest first) together with
the events handed to the notification dispatcher so far. -/
structure Store where
  components : List Component
  log : List TransactionLogEntry
  dispatched : List ThresholdCrossingEvent
deriving DecidableEq, Repr

/-- Modelled from the spec: what a successful ledger operation returns (spec
§6: the updated component and the log entry), together with the crossing event
it dispatched, if any. -/
structure Receipt where
  component : Component
  entry : TransactionLogEntry
  event : Option ThresholdCrossingEvent
deriving DecidableEq, Repr

/-! ## Threshold monitor (spec §4.2) -/

/-- Modelled from the spec: `lowStockState(q, threshold) := q ≤ threshold`
(spec §4.2). -/
def lowStockState (q threshold : Int) : Bool :=
  decide (q ≤ threshold)

/-- Modelled from the spec: "Crossing occurs iff lowStockState(previous_quantity,
threshold) ≠ lowStockState(new_quantity, threshold)" (spec §4.2). -/
def isCrossing (previous_quantity new_quantity threshold : Int) : Bool :=
  lowStockState previous_quantity threshold != lowStockState new_quantity threshold

/-- Modelled from the spec: the priority of a `low_stock` event, "`critical` if
new_quantity = 0, else `high`" (spec §4.2). -/
def lowStockPriority (new_quantity : Int) : Priority :=
  if new_quantity = 0 then Priority.critical else Priority.high

/-- Modelled from the spec: the threshold monitor of spec §4.2, a stateless
function of the previous quantity, the new quantity and the threshold.  Going
into low stock emits `low_stock`, leaving it emits `restocked`, and the two
transitions that keep the state emit nothing. -/
def evaluateCrossing (componentId : Nat) (previous_quantity new_quantity threshold : Int) :
    Option ThresholdCrossingEvent :=
  match lowStockState previous_quantity threshold, lowStockState new_quantity threshold with
  | false, true =>
      some { componentId := componentId, type := EventType.low_stock,
             priority := some (lowStockPriority new_quantity),
             quantity := new_quantity, threshold := threshold }
  | true, false =>
      some { componentId := componentId, type := EventType.restocked,
             priority := none,
             quantity := new_quantity, threshold := threshold }
  | true, true => none
  | false, false => none

/-! ## Transaction ledger (spec §4.1) -/

/-- Modelled from the spec: resolving a component identity against the
component store (spec §4.1, "read current component state"). -/
def findComponent (s : Store) (componentId : Nat) : Option Component :=
  s.components.find? (fun c => c.id == componentId)

/-- Modelled from the spec: writing a component's new quantity back to the
component store; the record that `findComponent` resolves is the one
replaced, every other record is kept. -/
def setQuantity : List Component → Nat → Int → List Component
  | [], _, _ => []
  | c :: cs, componentId, q =>
      if c.id == componentId then { c with quantity := q } :: cs
      else c :: setQuantity cs componentId q

/-- Modelled from the spec: the algorithm common to the three operations (spec
§4.1): build the log entry from previous quantity, new quantity and their
difference, persist the new component quantity and the entry together, then
ask the threshold monitor and dispatch the crossing event, if there is one. -/
def commit (s : Store) (c : Component) (action : Action) (new_quantity : Int)
    (reason actor : String) : Store × Except LedgerError Receipt :=
  let entry : TransactionLogEntry :=
    { component := c.id, action := action,
      previous_quantity := c.quantity, new_quantity := new_quantity,
      quantity_changed := new_quantity - c.quantity,
      reason := reason, actor := actor }
  let event := evaluateCrossing c.id c.quantity new_quantity c.critical_low_threshold
  ({ components := setQuantity s.components c.id new_quantity,
     log := s.log ++ [entry],
     dispatched := s.dispatched ++ event.toList },
   Except.ok { component := { c with quantity := new_quantity }, entry := entry, event := event })

/-- Modelled from the spec: `applyInward(componentId, quantity>0, reason, actor)`
(spec §4.1): `NotFound` for an unknown component, `InvalidArgument` for
`quantity ≤ 0` or a missing reason (spec §7), otherwise the quantity grows by
`quantity`.  A failed call returns the store it was given. -/
def applyInward (s : Store) (componentId : Nat) (quantity : Int)
    (reason : Option String) (actor : String) : Store × Except LedgerError Receipt :=
  match findComponent s componentId with
  | none => (s, Except.error LedgerError.NotFound)
  | some c =>
      if quantity ≤ 0 then (s, Except.error LedgerError.InvalidArgument)
      else
        match reason with
        | none => (s, Except.error LedgerError.InvalidArgument)
        | some r => commit s c Action.inward (c.quantity + quantity) r actor

/-- Modelled from the spec: `applyOutward(componentId, quantity>0, reason, actor)`
(spec §4.1): `NotFound` for an unknown component, `InvalidArgument` for
`quantity ≤ 0` or a missing reason, `InsufficientStock` if `quantity` exceeds
the current quantity, otherwise the quantity shrinks by `quantity`. -/
def applyOutward (s : Store) (componentId : Nat) (quantity : Int)
    (reason : Option String) (actor : String) : Store × Except LedgerError Receipt :=
  match findComponent s componentId with
  | none => (s, Except.error LedgerError.NotFound)
  | some c =>
      if quantity ≤ 0 then (s, Except.error LedgerError.InvalidArgument)
      else
        match reason with
        | none => (s, Except.error LedgerError.InvalidArgument)
        | some r =>
            if quantity > c.quantity then (s, Except.error LedgerError.InsufficientStock)
            else commit s c Action.outward (c.quantity - quantity) r actor

/-- Modelled from the spec: `applyAdjustment(componentId, newQuantity≥0, reason,
actor)` (spec §4.1): `NotFound` for an unknown component, `InvalidArgument`
for `newQuantity < 0` or a missing reason, otherwise the quantity is set to
`newQuantity`. -/
def applyAdjustment (s : Store) (componentId : Nat) (newQuantity : Int)
    (reason : Option String) (actor : String) : Store × Except LedgerError Receipt :=
  match findComponent s componentId with
  | none => (s, Except.error LedgerError.NotFound)
  | some c =>
      if newQuantity < 0 then (s, Except.error LedgerError.InvalidArgument)
      else
        match reason with
        | none => (s, Except.error LedgerError.InvalidArgument)
        | some r => commit s c Action.adjustment newQuantity r actor

/-- Modelled from the spec: one call of the ledger contract of spec §6
(`POST inward`, `POST outward`, `POST adjustment`). -/
inductive LedgerOp where
  | inward (componentId : Nat) (quantity : Int) (reason : Option String) (actor : String)
  | outward (componentId : Nat) (quantity : Int) (reason : Option String) (actor : String)
  | adjustment (componentId : Nat) (newQuantity : Int) (reason : Option String) (actor : String)
deriving DecidableEq, Repr

/-- Modelled from the spec: carrying out one ledger call against the store. -/
def applyOp (s : Store) : LedgerOp → Store × Except LedgerError Receipt
  | LedgerOp.inward componentId quantity reason actor =>
      applyInward s componentId quantity reason actor
  | LedgerOp.outward componentId quantity reason actor =>
      applyOutward s componentId quantity reason actor
  | LedgerOp.adjustment componentId newQuantity reason actor =>
      applyAdjustment s componentId newQuantity reason actor

/-- Modelled from the spec: a finite sequence of ledger calls carried out one
after the other, each on the store its predecessor left, whether that one
succeeded or failed. -/
def applyOps (s : Store) : List LedgerOp → Store
  | [] => s
  | op :: ops => applyOps (applyOp s op).1 ops

/-- The log entries of component `componentId` that a run from store `s` to
store `t` appended: the entries of `t` past the length of the log of `s`. -/
def appendedEntries (s t : Store) (componentId : Nat) : List TransactionLogEntry :=
  (t.log.drop s.log.length).filter (fun e => e.component == componentId)

/-- The sum of `quantity_changed` over a list of log entries. -/
def totalChange (entries : List TransactionLogEntry) : Int :=
  (entries.map (fun e => e.quantity_changed)).sum

/-! ## History page: the fallback text search of `fetchLogs` (`History.jsx`) -/

/-- The populated `component` of a log document, with the two fields the
search reads; either may be absent. -/
structure LogComponent where
  component_name : Option String
  part_number : Option String
deriving DecidableEq, Repr

/-- The populated `user` of a log document, with the field the search reads. -/
structure LogUser where
  name : Option String
deriving DecidableEq, Repr

/-- A log document as `fetchLogs` receives it from `/components/:id/logs`, with
the fields `fetchLogs` reads.  `component`, `reason` and `user` may be absent
(the code reaches them through `?.`); `createdAt` is the creation time as
`new Date(log.createdAt).getTime()` gives it. -/
structure HistoryLog where
  component : Option LogComponent
  reason : Option String
  user : Option LogUser
  action : String
  createdAt : Int
deriving DecidableEq, Repr

/-- The method `String.prototype.includes`: `searchString` occurs in `s` as a
contiguous run of characters. -/
def includes (s searchString : String) : Bool :=
  decide (searchString.data <:+: s.data)

/-- The JavaScript operator `||` on values that are `undefined` (`none`),
`true` or `false`: the left operand if it is truthy, else the right operand. -/
def jsOr (a b : Option Bool) : Option Bool :=
  if a = some true then a else b

/-- The conversion of `undefined`, `true` or `false` to a boolean, as
`Array.prototype.filter` applies it to the value of its callback. -/
def toBoolean (v : Option Bool) : Bool :=
  v == some true

/-- One operand of the search callback, `field?.toLowerCase().includes(
searchTerm.toLowerCase())`: `undefined` when the optional chain ends early,
otherwise the result of `includes`.  `toLowerCase` is the string method of
that name, a parameter here. -/
def fieldIncludes (toLowerCase : String → String) (field : Option String)
    (searchTerm : String) : Option Bool :=
  match field with
  | none => none
  | some v => some (includes (toLowerCase v) (toLowerCase searchTerm))

/-- The callback of the search filter (`History.jsx`, lines 111-116):
`log.component?.component_name?.toLowerCase().includes(..) ||
 log.component?.part_number?.toLowerCase().includes(..) ||
 log.reason?.toLowerCase().includes(..) ||
 log.user?.name?.toLowerCase().includes(..)`, converted to a boolean. -/
def searchCallback (toLowerCase : String → String) (searchTerm : String)
    (log : HistoryLog) : Bool :=
  toBoolean
    (jsOr
      (jsOr
        (jsOr
          (fieldIncludes toLowerCase (log.component.bind (fun c => c.component_name)) searchTerm)
          (fieldIncludes toLowerCase (log.component.bind (fun c => c.part_number)) searchTerm))
        (fieldIncludes toLowerCase log.reason searchTerm))
      (fieldIncludes toLowerCase (log.user.bind (fun u => u.name)) searchTerm))

/-- The search step of the fallback in `fetchLogs` (`History.jsx`, lines
108-117): `if (searchTerm) filteredLogs = filteredLogs.filter(..)`; an empty
`searchTerm` is falsy and leaves the list as it is. -/
def searchFilter (toLowerCase : String → String) (searchTerm : String)
    (allLogs : List HistoryLog) : List HistoryLog :=
  if searchTerm ≠ "" then allLogs.filter (searchCallback toLowerCase searchTerm)
  else allLogs

/-- The texts the specification's `textSearch` names for a log entry: component
name, part number, reason and actor name, each only if present. -/
def searchableTexts (log : HistoryLog) : List String :=
  (log.component.bind (fun c => c.component_name)).toList
    ++ (log.component.bind (fun c => c.part_number)).toList
    ++ log.reason.toList
    ++ (log.user.bind (fun u => u.name)).toList

/-- The matching condition in the specification's words (case-insensitive
substring): the lower-cased term is a substring of the lower-cased component
name, part number, reason or actor name of the entry. -/
def TermMatches (toLowerCase : String → String) (searchTerm : String)
    (log : HistoryLog) : Prop :=
  ∃ text ∈ searchableTexts log, (toLowerCase searchTerm).data <:+: (toLowerCase text).data

instance (toLowerCase : String → String) (searchTerm : String) (log : HistoryLog) :
    Decidable (TermMatches toLowerCase searchTerm log) := by
  unfold TermMatches
  infer_instance

/-- The ASCII part of `toLowerCase`, to evaluate the examples. -/
def lowerAscii (s : String) : String :=
  ⟨s.data.map Char.toLower⟩

/-- Four log documents: one matching "esp" in the component name, one in the
reason, one with no component, reason or user, and one matching in the actor
name. -/
def exampleLogs : List HistoryLog :=
  [ { component := some { component_name := some "ESP32 Module", part_number := some "MCU-001" },
      reason := some "prototype build", user := some { name := some "Asha" },
      action := "outward", createdAt := 300 },
    { component := some { component_name := some "Resistor 10k", part_number := none },
      reason := some "for the ESP board", user := none,
      action := "inward", createdAt := 200 },
    { component := none, reason := none, user := none,
      action := "deleted", createdAt := 100 },
    { component := some { component_name := none, part_number := some "CAP-220" },
      reason := none, user := some { name := some "Esperanza" },
      action := "adjustment", createdAt := 100 } ]

/-! ## History page: request parameters, fallback and export (`History.jsx`) -/

/-- The React state that `fetchLogs` and `handleExport` read (`History.jsx`,
lines 30-40): the search term, the three filters and the current page. -/
structure HistoryState where
  searchTerm : String
  actionFilter : String
  userFilter : String
  dateFilter : String
  currentPage : Nat
deriving DecidableEq, Repr

/-- The pagination metadata the page keeps (`History.jsx`, lines 34-40). -/
structure Pagination where
  currentPage : Nat
  totalPages : Nat
  totalLogs : Nat
  hasNext : Bool
  hasPrev : Bool
deriving DecidableEq, Repr

/-- The options of the action select, value and label (`History.jsx`, lines
42-50). -/
def actions : List (String × String) :=
  [ ("all", "All Actions"),
    ("inward", "Inward"),
    ("outward", "Outward"),
    ("adjustment", "Adjustment"),
    ("created", "Created"),
    ("updated", "Updated"),
    ("deleted", "Deleted") ]

/-- The options of the date select, value and label (`History.jsx`, lines
52-58). -/
def dateFilters : List (String × String) :=
  [ ("all", "All Time"),
    ("1", "Last 24 Hours"),
    ("7", "Last 7 Days"),
    ("30", "Last 30 Days"),
    ("90", "Last 90 Days") ]

/-- The query parameters of the logs request (`History.jsx`, lines 67-74). -/
structure LogsRequest where
  page : String
  limit : String
  search : String
  action : String
  user : String
  days : String
deriving DecidableEq, Repr

/-- The parameters `fetchLogs` builds from the state (`History.jsx`, lines
67-74): page size `'50'`, and an empty string for a filter set to `'all'`. -/
def requestParams (st : HistoryState) : LogsRequest :=
  { page := toString st.currentPage,
    limit := "50",
    search := st.searchTerm,
    action := if st.actionFilter = "all" then "" else st.actionFilter,
    user := if st.userFilter = "all" then "" else st.userFilter,
    days := if st.dateFilter = "all" then "" else st.dateFilter }

/-- The fallback collection of `fetchLogs` (`History.jsx`, lines 97-105):
`for (const component of components.slice(0, 10))` pushes the logs of the
component onto `allLogs`; a component whose log request throws (`none`) is
skipped.  Components are given by their `_id`, `logsOf` is the answer of
`/components/:id/logs`. -/
def collectLogs (components : List Nat) (logsOf : Nat → Option (List HistoryLog)) :
    List HistoryLog :=
  (components.take 10).foldl
    (fun allLogs component =>
      match logsOf component with
      | some logs => allLogs ++ logs
      | none => allLogs)
    []

/-- The action step of the fallback (`History.jsx`, lines 119-121):
`if (actionFilter !== 'all') filteredLogs = filteredLogs.filter(log =>
log.action === actionFilter)`. -/
def actionFilterStep (actionFilter : String) (filteredLogs : List HistoryLog) :
    List HistoryLog :=
  if actionFilter ≠ "all" then filteredLogs.filter (fun log => log.action == actionFilter)
  else filteredLogs

/-- The sort of the fallback (`History.jsx`, line 124): `filteredLogs.sort((a,
b) => new Date(b.createdAt).getTime() - new Date(a.createdAt).getTime())`.
`Array.prototype.sort` is stable, and the comparator puts `a` before `b` when
`a` is newer; the result is computed here by stable insertion. -/
def sortNewestFirst (filteredLogs : List HistoryLog) : List HistoryLog :=
  filteredLogs.insertionSort (fun a b => b.createdAt ≤ a.createdAt)

/-- The fallback of `fetchLogs` (`History.jsx`, lines 91-133): collect, filter
by search term and action, sort, then `setLogs(filteredLogs)` and
`setPagination(..)` with a single page.  The state's `userFilter`,
`dateFilter` and `currentPage` are not read on this path. -/
def fetchLogsFallback (toLowerCase : String → String) (st : HistoryState)
    (components : List Nat) (logsOf : Nat → Option (List HistoryLog)) :
    List HistoryLog × Pagination :=
  let allLogs := collectLogs components logsOf
  let filteredLogs :=
    sortNewestFirst
      (actionFilterStep st.actionFilter (searchFilter toLowerCase st.searchTerm allLogs))
  (filteredLogs,
   { currentPage := 1, totalPages := 1, totalLogs := filteredLogs.length,
     hasNext := false, hasPrev := false })

/-- The function `parseInt` on a string that starts neither with white space
nor with a sign or `0x` (the values of `dateFilters` are such): the number its
leading decimal digits spell, `none` (`NaN`) when it starts with no digit. -/
def parseInt (s : String) : Option Nat :=
  match s.data.takeWhile Char.isDigit with
  | [] => none
  | d :: ds => some ((d :: ds).foldl (fun n c => 10 * n + (c.toNat - 48)) 0)

/-- The arguments of `exportService.exportLogs` (`History.jsx`, line 148). -/
structure ExportCall where
  format : String
  days : Nat
  action : Option String
deriving DecidableEq, Repr

/-- The call `handleExport` makes (`History.jsx`, line 148):
`exportLogs(format, parseInt(dateFilter) || 30, actionFilter === 'all' ?
undefined : actionFilter)`; `NaN` and `0` are falsy, so `||` gives 30. -/
def handleExport (format : String) (st : HistoryState) : ExportCall :=
  { format := format,
    days :=
      match parseInt st.dateFilter with
      | none => 30
      | some n => if n = 0 then 30 else n,
    action := if st.actionFilter = "all" then none else some st.actionFilter }

/-- The specification's tie rule read on a result: `written` lists the log
entries in the order they were written; among the entries of `result` with
one and the same timestamp, that order is kept. -/
def TiesInWriteOrder (written result : List HistoryLog) : Prop :=
  ∀ t : Int, List.Sublist (result.filter (fun log => log.createdAt == t)) written

/-- The state of the page when it opens (`History.jsx`, lines 30-40): no search
term, every filter `'all'`, page 1. -/
def initialState : HistoryState :=
  { searchTerm := "", actionFilter := "all", userFilter := "all", dateFilter := "all",
    currentPage := 1 }

/-- A log document of action `inward` with timestamp `t`; its `part_number`
carries `name` to tell the documents apart. -/
def sampleLog (name : String) (t : Int) : HistoryLog :=
  { component := some { component_name := some "Resistor 10k", part_number := some name },
    reason := some "restock", user := some { name := some "ravi" },
    action := "inward", createdAt := t }

/-- Log answers for two components: component 1 has one log, written second;
component 2 has one log, written first; both carry the timestamp 100. -/
def tieLogsOf (component : Nat) : Option (List HistoryLog) :=
  if component = 1 then some [sampleLog "written-second" 100]
  else if component = 2 then some [sampleLog "written-first" 100]
  else none

/-- The write order of the two logs of `tieLogsOf`. -/
def tieWritten : List HistoryLog :=
  [sampleLog "written-first" 100, sampleLog "written-second" 100]

/-- Log answers in which component 1 has 120 logs, newest first, and no other
component has any. -/
def manyLogsOf (component : Nat) : Option (List HistoryLog) :=
  if component = 1 then
    some ((List.range 120).map (fun i : Nat => sampleLog (toString i) (120 - (i : Int))))
  else some []

/-- Log answers in which every component has exactly one log, stamped with
the component's `_id`. -/
def oneLogEach (component : Nat) : Option (List HistoryLog) :=
  some [sampleLog "only" (component : Int)]

/-! ## Stock pages and public routes (`LowStock.jsx`, `ManageStock.jsx`,
`publicRoutes.js`) -/

/-- A component object as the stock pages receive it from the server, with the
fields the code embedded below reads: `_id`, `quantity`,
`critical_low_threshold` and the flag `isLowStock` the server attaches (`false`
also stands for an absent flag, which is falsy as well). -/
structure ComponentView where
  id : Nat
  quantity : Int
  critical_low_threshold : Int
  isLowStock : Bool
deriving DecidableEq, Repr

/-- The condition of `lowStockCount` in `GET /stats` (`publicRoutes.js`, lines
86-88): `$expr: { $lte: ['$quantity', '$critical_low_threshold'] }`. -/
def statsLowStock (c : ComponentView) : Bool :=
  decide (c.quantity ≤ c.critical_low_threshold)

/-- The value of `lowStockCount` in `GET /stats`: `countDocuments` of the
components that meet the condition. -/
def lowStockCount (components : List ComponentView) : Nat :=
  components.countP statsLowStock

/-- The retention filter of the LowStock page (`LowStock.jsx`, line 89):
`comp.isLowStock || comp.quantity <= comp.critical_low_threshold`. -/
def retainsLowStock (comp : ComponentView) : Bool :=
  comp.isLowStock || decide (comp.quantity ≤ comp.critical_low_threshold)

/-- The condition of the "Critical Items" count (`LowStock.jsx`, line 202):
`c.quantity === 0`. -/
def isCriticalItem (c : ComponentView) : Bool :=
  c.quantity == 0

/-- The condition of the "Low Stock Items" count (`LowStock.jsx`, line 218):
`c.quantity > 0 && c.quantity <= c.critical_low_threshold`. -/
def isLowStockItem (c : ComponentView) : Bool :=
  decide (c.quantity > 0) && decide (c.quantity ≤ c.critical_low_threshold)

/-- The list update of `handleInventorySubmit` on the LowStock page after the
inward call returned `response.component` (`LowStock.jsx`, lines 81-90): map
the selected component to the server's, then keep what is still low stock. -/
def LowStock.handleInventorySubmit (prev : List ComponentView) (selectedId : Nat)
    (responseComponent : ComponentView) : List ComponentView :=
  (prev.map (fun comp => if comp.id == selectedId then responseComponent else comp)).filter
    retainsLowStock

/-- The result of `getStockStatus`: label and the two class strings. -/
structure StockStatus where
  text : String
  color : String
  bg : String
deriving DecidableEq, Repr

/-- The function `getStockStatus` of the ManageStock page (`ManageStock.jsx`,
lines 108-116). -/
def getStockStatus (component : ComponentView) : StockStatus :=
  if component.quantity = 0 then
    { text := "Out of Stock", color := "text-red-600 dark:text-red-400",
      bg := "bg-red-100 dark:bg-red-900/20" }
  else if component.isLowStock then
    { text := "Low Stock", color := "text-yellow-600 dark:text-yellow-400",
      bg := "bg-yellow-100 dark:bg-yellow-900/20" }
  else
    { text := "In Stock", color := "text-green-600 dark:text-green-400",
      bg := "bg-green-100 dark:bg-green-900/20" }

/-- The condition of the alert block of a component card (`ManageStock.jsx`,
line 222): `component.isLowStock || component.quantity === 0`. -/
def showsStockAlert (component : ComponentView) : Bool :=
  component.isLowStock || component.quantity == 0

/-- The text inside the alert block (`ManageStock.jsx`, line 227). -/
def stockAlertText (component : ComponentView) : String :=
  if component.quantity = 0 then "Out of stock" else "Low stock alert"

/-- An entry of the `categories` response of `GET /categories`. -/
structure CategoryEntry where
  name : String
  count : Nat
deriving DecidableEq, Repr

/-- The mapping in `GET /categories` (`publicRoutes.js`, lines 59-65):
`categories.map(category => ..)` with `categoryCounts.find(item => item._id ===
category)`; a row of the aggregate is the pair of its `_id` and `count`. -/
def categoriesWithCounts (categories : List String) (categoryCounts : List (String × Nat)) :
    List CategoryEntry :=
  categories.map (fun category =>
    match categoryCounts.find? (fun item => item.1 == category) with
    | some categoryData => { name := category, count := categoryData.2 }
    | none => { name := category, count := 0 })

/-- Three low-stock components as the LowStock page lists them. -/
def exampleLowStock : List ComponentView :=
  [ ⟨1, 0, 10, true⟩, ⟨2, 3, 5, true⟩, ⟨3, 5, 5, true⟩ ]

/-! ## ManageStock submit, summary counts and role capabilities
(`ManageStock.jsx`, `LowStock.jsx`) -/

/-- The values of `inventoryAction` on the ManageStock page, as
`handleInventoryAction` sets them (`ManageStock.jsx`, lines 237-258). -/
inductive InventoryAction where
  | inward
  | outward
  | adjust
deriving DecidableEq, Repr

/-- The list update of `handleInventorySubmit` on the ManageStock page
(`ManageStock.jsx`, lines 67-106).  `service` is the `componentService` call
the `switch` picks for the action, answering `response.component` or throwing;
with no selected component, or when the call throws, `setComponents` is not
reached. -/
def ManageStock.handleInventorySubmit (prev : List ComponentView)
    (selectedComponent : Option ComponentView) (inventoryAction : InventoryAction)
    (service : InventoryAction → Nat → Except String ComponentView) : List ComponentView :=
  match selectedComponent with
  | none => prev
  | some selected =>
      match service inventoryAction selected.id with
      | Except.ok responseComponent =>
          prev.map (fun comp => if comp.id == selected.id then responseComponent else comp)
      | Except.error _ => prev

/-- The number under "Critical Items" (`LowStock.jsx`, line 202):
`components.filter(c => c.quantity === 0).length`. -/
def criticalItemsCount (components : List ComponentView) : Nat :=
  (components.filter isCriticalItem).length

/-- The number under "Low Stock Items" (`LowStock.jsx`, line 218):
`components.filter(c => c.quantity > 0 && c.quantity <= c.critical_low_threshold).length`. -/
def lowStockItemsCount (components : List ComponentView) : Nat :=
  (components.filter isLowStockItem).length

/-- The signed-in user as the auth context holds it, with the field the pages
read (`user?.role`). -/
structure User where
  name : String
  role : String
deriving DecidableEq, Repr

/-- The expression `user?.role`: `undefined` (`none`) without a user. -/
def roleOf (user : Option User) : Option String :=
  user.map (fun u => u.role)

/-- The flag `canInward` of the ManageStock page (`ManageStock.jsx`, line
118). -/
def canInward (user : Option User) : Bool :=
  roleOf user == some "Admin" || roleOf user == some "Lab Technician"

/-- The flag `canOutward` of the ManageStock page (`ManageStock.jsx`, line
119). -/
def canOutward (user : Option User) : Bool :=
  roleOf user == some "Admin" || roleOf user == some "Engineer"
    || roleOf user == some "Lab Technician"

/-- The flag `canAdjust` of the ManageStock page (`ManageStock.jsx`, line
120). -/
def canAdjust (user : Option User) : Bool :=
  roleOf user == some "Admin"

/-- The flag `canAddStock` of the LowStock page (`LowStock.jsx`, line 144). -/
def canAddStock (user : Option User) : Bool :=
  roleOf user == some "Admin" || roleOf user == some "Lab Technician"

/-! ## Route guards and auth context (`App.jsx`, `AuthContext.jsx`) -/

/-- What a route guard returns: the loading spinner, a `Navigate` to a path, or
its children. -/
inductive Rendered where
  | loadingSpinner
  | navigate (path : String)
  | children
deriving DecidableEq, Repr

/-- The component `ProtectedRoute` (`App.jsx`, lines 19-25). -/
def ProtectedRoute (user : Option User) (loading : Bool) : Rendered :=
  if loading then Rendered.loadingSpinner
  else
    match user with
    | none => Rendered.navigate "/login"
    | some _ => Rendered.children

/-- The component `PublicRoute` (`App.jsx`, lines 28-34). -/
def PublicRoute (user : Option User) (loading : Bool) : Rendered :=
  if loading then Rendered.loadingSpinner
  else
    match user with
    | some _ => Rendered.navigate "/dashboard"
    | none => Rendered.children

/-- One argument of a console call: a text, a user object or an error. -/
inductive ConsoleArg where
  | text (s : String)
  | user (u : User)
  | error (message : String)
deriving DecidableEq, Repr

/-- One console call: `console.log` (`isError = false`) or `console.error`, with
its arguments in order. -/
structure ConsoleLine where
  isError : Bool
  args : List ConsoleArg
deriving DecidableEq, Repr

/-- The state of `AuthProvider` (`AuthContext.jsx`, lines 18-20) together with
what its functions write besides: the `token` item of `localStorage`, the
`Authorization` default header of axios, and the console. -/
structure AuthWorld where
  user : Option User
  token : Option String
  loading : Bool
  storedToken : Option String
  authorization : Option String
  console : List ConsoleLine
deriving DecidableEq, Repr

/-- The provider when it mounts: `user` and `token` null, `loading` true, with
the given `localStorage` item, no header and an empty console. -/
def mountedWorld (storedToken : Option String) : AuthWorld :=
  { user := none, token := none, loading := true, storedToken := storedToken,
    authorization := none, console := [] }

/-- The function `initializeAuth` (`AuthContext.jsx`, lines 23-39).  `profile`
is the outcome of `axios.get('/api/auth/profile')`: the user of the response,
or the error thrown.  An absent or empty stored token is falsy. -/
def initializeAuth (w : AuthWorld) (profile : Except String User) : AuthWorld :=
  match w.storedToken with
  | none => { w with loading := false }
  | some storedToken =>
      if storedToken = "" then { w with loading := false }
      else
        match profile with
        | Except.ok user =>
            { w with token := some storedToken,
                     authorization := some ("Bearer " ++ storedToken),
                     user := some user,
                     loading := false }
        | Except.error error =>
            { w with token := some storedToken,
                     console := w.console ++
                       [⟨true, [ConsoleArg.text "🔒 Token validation failed:",
                                ConsoleArg.error error]⟩],
                     storedToken := none,
                     authorization := none,
                     loading := false }

/-- The error `axios.post` throws in `login`, with `error.response?.data?.message`
if the response carries one. -/
structure LoginError where
  text : String
  responseMessage : Option String
deriving DecidableEq, Repr

/-- The function `login` (`AuthContext.jsx`, lines 44-61).  `response` is the
outcome of `axios.post('/api/auth/login', ..)`: token and user of the response,
or the error thrown; the result is the new world and, on failure, the message
of the error `login` throws. -/
def login (w : AuthWorld) (email password : String)
    (response : Except LoginError (String × User)) : AuthWorld × Except String Unit :=
  let attempt : ConsoleLine :=
    ⟨false, [ConsoleArg.text "🔑 Attempting login with:", ConsoleArg.text email,
             ConsoleArg.text password]⟩
  match response with
  | Except.ok (newToken, userData) =>
      ({ w with token := some newToken,
                user := some userData,
                storedToken := some newToken,
                authorization := some ("Bearer " ++ newToken),
                console := w.console ++
                  [attempt,
                   ⟨false, [ConsoleArg.text "✅ Login successful:", ConsoleArg.user userData]⟩] },
       Except.ok ())
  | Except.error error =>
      ({ w with console := w.console ++
                  [attempt,
                   ⟨true, [ConsoleArg.text "❌ Login failed:", ConsoleArg.error error.text]⟩] },
       Except.error
         (match error.responseMessage with
          | some message => if message = "" then "Login failed" else message
          | none => "Login failed"))

/-- The function `logout` (`AuthContext.jsx`, lines 63-68). -/
def logout (w : AuthWorld) : AuthWorld :=
  { w with user := none, token := none, storedToken := none, authorization := none }

/-- The invariant of the auth state: once `loading` is false, the token is null
whenever the user is null. -/
def AuthInvariant (w : AuthWorld) : Prop :=
  w.loading = false → w.user = none → w.token = none

/-- A user with the role `role`. -/
def userWithRole (role : String) : Option User :=
  some { name := "asha", role := role }

/-! ## Worked examples -/

/-- The end-to-end example of spec §8: component 1 starts at quantity 20 with
threshold 10; component 2 holds 10 units with threshold 5. -/
def exampleStore : Store :=
  { components := [⟨1, 20, 10⟩, ⟨2, 10, 5⟩], log := [], dispatched := [] }

/-- A run over `exampleStore` with successes and each kind of failure: an
outward and an inward on component 1, two outward calls of 7 on component 2
(the second exceeds the stock left), an adjustment to 0, a non-positive
inward, an unknown component and a call without a reason. -/
def exampleOps : List LedgerOp :=
  [ LedgerOp.outward 1 12 (some "build") "asha",
    LedgerOp.inward 1 5 (some "restock") "ravi",
    LedgerOp.outward 2 7 (some "build") "asha",
    LedgerOp.outward 2 7 (some "build") "ravi",
    LedgerOp.adjustment 1 0 (some "stock count") "admin",
    LedgerOp.inward 1 (-3) (some "typo") "ravi",
    LedgerOp.inward 9 1 (some "restock") "ravi",
    LedgerOp.inward 1 4 none "ravi" ]

/-- The crossing example of spec §8: one component at quantity 6 with
threshold 5. -/
def crossingStore : Store :=
  { components := [⟨7, 6, 5⟩], log := [], dispatched := [] }

/-- The three transitions of the crossing example: 6→5, 5→4 and 4→6. -/
def crossingOps : List LedgerOp :=
  [ LedgerOp.outward 7 1 (some "use") "asha",
    LedgerOp.outward 7 1 (some "use") "asha",
    LedgerOp.inward 7 2 (some "restock") "ravi" ]

/-! ## Lemmas on the component store -/

theorem find_id_eq (cs : List Component) (componentId : Nat) (c : Component)
    (h : cs.find? (fun x => x.id == componentId) = some c) : c.id = componentId := by
  have := List.find?_some h
  simpa using this

theorem findComponent_id_eq (s : Store) (componentId : Nat) (c : Component)
    (h : findComponent s componentId = some c) : c.id = componentId :=
  find_id_eq s.components componentId c h

theorem find_setQuantity_same (cs : List Component) (componentId : Nat) (q : Int)
    (c : Component) (h : cs.find? (fun x => x.id == componentId) = some c) :
    (setQuantity cs componentId q).find? (fun x => x.id == componentId)
      = some { c with quantity := q } := by
  induction cs with
  | nil => simp at h
  | cons d ds ih =>
    cases hb : (d.id == componentId) with
    | true =>
      simp only [List.find?_cons, hb] at h
      have hc : d = c := by simpa using h
      subst hc
      simp only [setQuantity, hb, if_true, List.find?_cons]
    | false =>
      simp only [List.find?_cons, hb] at h
      simp only [setQuantity, hb, List.find?_cons, Bool.false_eq_true, if_false]
      exact ih h

theorem find_setQuantity_other (cs : List Component) (componentId other : Nat) (q : Int)
    (hne : other ≠ componentId) :
    (setQuantity cs componentId q).find? (fun x => x.id == other)
      = cs.find? (fun x => x.id == other) := by
  induction cs with
  | nil => simp [setQuantity]
  | cons d ds ih =>
    cases hb : (d.id == componentId) with
    | true =>
      have hd : d.id = componentId := by simpa using hb
      have hdo : (d.id == other) = false := by
        simpa using fun h : d.id = other => hne (h.symm.trans hd)
      simp only [setQuantity, hb, if_true, List.find?_cons, hdo]
    | false =>
      simp only [setQuantity, hb, Bool.false_eq_true, if_false, List.find?_cons, ih]

theorem setQuantity_length (cs : List Component) (componentId : Nat) (q : Int) :
    (setQuantity cs componentId q).length = cs.length := by
  induction cs with
  | nil => simp [setQuantity]
  | cons d ds ih =>
    by_cases hd : d.id = componentId <;> simp [setQuantity, hd, ih]

/-- A ledger call either fails and returns the store it was given, or it is a
commit on the component it resolved, with a reason text. -/
theorem applyOp_cases (s : Store) (op : LedgerOp) :
    (∃ e, applyOp s op = (s, Except.error e)) ∨
    (∃ c action q r a, findComponent s c.id = some c ∧ applyOp s op = commit s c action q r a) := by
  cases op with
  | inward componentId quantity reason actor =>
    simp only [applyOp, applyInward]
    cases hf : findComponent s componentId with
    | none => exact Or.inl ⟨_, rfl⟩
    | some c =>
      have hid := findComponent_id_eq s componentId c hf
      by_cases hq : quantity ≤ 0
      · simp only [hq, if_true]; exact Or.inl ⟨_, rfl⟩
      · cases reason with
        | none => simp only [hq, if_false]; exact Or.inl ⟨_, rfl⟩
        | some r =>
          simp only [hq, if_false]
          exact Or.inr ⟨c, _, _, r, actor, by rw [hid]; exact hf, rfl⟩
  | outward componentId quantity reason actor =>
    simp only [applyOp, applyOutward]
    cases hf : findComponent s componentId with
    | none => exact Or.inl ⟨_, rfl⟩
    | some c =>
      have hid := findComponent_id_eq s componentId c hf
      by_cases hq : quantity ≤ 0
      · simp only [hq, if_true]; exact Or.inl ⟨_, rfl⟩
      · cases reason with
        | none => simp only [hq, if_false]; exact Or.inl ⟨_, rfl⟩
        | some r =>
          by_cases hs : quantity > c.quantity
          · simp only [hq, if_false, hs, if_true]; exact Or.inl ⟨_, rfl⟩
          · simp only [hq, if_false, hs]
            exact Or.inr ⟨c, _, _, r, actor, by rw [hid]; exact hf, rfl⟩
  | adjustment componentId newQuantity reason actor =>
    simp only [applyOp, applyAdjustment]
    cases hf : findComponent s componentId with
    | none => exact Or.inl ⟨_, rfl⟩
    | some c =>
      have hid := findComponent_id_eq s componentId c hf
      by_cases hq : newQuantity < 0
      · simp only [hq, if_true]; exact Or.inl ⟨_, rfl⟩
      · cases reason with
        | none => simp only [hq, if_false]; exact Or.inl ⟨_, rfl⟩
        | some r =>
          simp only [hq, if_false]
          exact Or.inr ⟨c, _, _, r, actor, by rw [hid]; exact hf, rfl⟩

theorem findComponent_commit_same (s : Store) (c : Component) (action : Action) (q : Int)
    (r a : String) (h : findComponent s c.id = some c) :
    findComponent (commit s c action q r a).1 c.id = some { c with quantity := q } := by
  simp only [commit, findComponent]
  exact find_setQuantity_same s.components c.id q c h

theorem findComponent_commit_other (s : Store) (c : Component) (action : Action) (q : Int)
    (r a : String) (other : Nat) (hne : other ≠ c.id) :
    findComponent (commit s c action q r a).1 other = findComponent s other := by
  simp only [commit, findComponent]
  exact find_setQuantity_other s.components c.id other q hne

theorem commit_log (s : Store) (c : Component) (action : Action) (q : Int) (r a : String) :
    (commit s c action q r a).1.log
      = s.log ++ [{ component := c.id, action := action, previous_quantity := c.quantity,
                    new_quantity := q, quantity_changed := q - c.quantity,
                    reason := r, actor := a }] := rfl

theorem totalChange_nil : totalChange [] = 0 := rfl

theorem totalChange_append (xs ys : List TransactionLogEntry) :
    totalChange (xs ++ ys) = totalChange xs + totalChange ys := by
  simp [totalChange, List.map_append, List.sum_append]

theorem filter_component_append (xs ys : List TransactionLogEntry) (componentId : Nat) :
    (xs ++ ys).filter (fun e => e.component == componentId)
      = xs.filter (fun e => e.component == componentId)
        ++ ys.filter (fun e => e.component == componentId) :=
  List.filter_append xs ys

/-- One ledger call extends the log and moves the quantity of every component by
the changes it logged for that component. -/
theorem applyOp_ledger (s : Store) (op : LedgerOp) (componentId : Nat) (c : Component)
    (h : findComponent s componentId = some c) :
    ∃ ext c1, (applyOp s op).1.log = s.log ++ ext ∧
      findComponent (applyOp s op).1 componentId = some c1 ∧
      c1.quantity
        = c.quantity + totalChange (ext.filter (fun e => e.component == componentId)) := by
  rcases applyOp_cases s op with ⟨e, he⟩ | ⟨d, action, q, r, a, hd, hc⟩
  · refine ⟨[], c, ?_, ?_, ?_⟩
    · rw [he]; simp
    · rw [he]; exact h
    · simp [totalChange]
  · by_cases hid : componentId = d.id
    · subst hid
      have hcd : c = d := by
        rw [h] at hd; exact Option.some.inj hd
      subst hcd
      refine ⟨[⟨c.id, action, c.quantity, q, q - c.quantity, r, a⟩],
        { c with quantity := q }, ?_, ?_, ?_⟩
      · rw [hc]; exact commit_log s c action q r a
      · rw [hc]; exact findComponent_commit_same s c action q r a h
      · simp [totalChange]
    · refine ⟨[⟨d.id, action, d.quantity, q, q - d.quantity, r, a⟩], c, ?_, ?_, ?_⟩
      · rw [hc]; exact commit_log s d action q r a
      · rw [hc, findComponent_commit_other s d action q r a componentId hid]; exact h
      · have hne : ¬ d.id = componentId := fun h2 => hid h2.symm
        simp [totalChange, hne]

/-- A sequence of ledger calls extends the log and moves the quantity of every
component by the sum of the changes logged for it. -/
theorem applyOps_ledger (ops : List LedgerOp) (s : Store) (componentId : Nat) (c : Component)
    (h : findComponent s componentId = some c) :
    ∃ ext c1, (applyOps s ops).log = s.log ++ ext ∧
      findComponent (applyOps s ops) componentId = some c1 ∧
      c1.quantity
        = c.quantity + totalChange (ext.filter (fun e => e.component == componentId)) := by
  induction ops generalizing s c with
  | nil =>
    exact ⟨[], c, by simp [applyOps], h, by simp [totalChange]⟩
  | cons op ops ih =>
    obtain ⟨ext1, c1, hlog1, hfind1, hq1⟩ := applyOp_ledger s op componentId c h
    obtain ⟨ext2, c2, hlog2, hfind2, hq2⟩ := ih (applyOp s op).1 c1 hfind1
    refine ⟨ext1 ++ ext2, c2, ?_, hfind2, ?_⟩
    · simp only [applyOps]
      rw [hlog2, hlog1, List.append_assoc]
    · rw [hq2, hq1, filter_component_append, totalChange_append]
      ring

theorem setQuantity_same_quantity (cs : List Component) (componentId : Nat) (c : Component)
    (h : cs.find? (fun x => x.id == componentId) = some c) :
    setQuantity cs componentId c.quantity = cs := by
  induction cs with
  | nil => simp at h
  | cons d ds ih =>
    cases hb : (d.id == componentId) with
    | true =>
      simp only [List.find?_cons, hb] at h
      have hc : d = c := by simpa using h
      subst hc
      simp only [setQuantity, hb, if_true]
    | false =>
      simp only [List.find?_cons, hb] at h
      simp only [setQuantity, hb, Bool.false_eq_true, if_false, ih h]

theorem applyInward_ok (s : Store) (componentId : Nat) (c : Component) (n : Int)
    (r a : String) (h : findComponent s componentId = some c) (hn : 0 < n) :
    applyInward s componentId n (some r) a = commit s c Action.inward (c.quantity + n) r a := by
  have hn2 : ¬ n ≤ 0 := not_le.mpr hn
  simp only [applyInward, h, hn2, if_false]

theorem applyOutward_ok (s : Store) (componentId : Nat) (c : Component) (n : Int)
    (r a : String) (h : findComponent s componentId = some c) (hn : 0 < n)
    (hle : n ≤ c.quantity) :
    applyOutward s componentId n (some r) a
      = commit s c Action.outward (c.quantity - n) r a := by
  have hn2 : ¬ n ≤ 0 := not_le.mpr hn
  have hle2 : ¬ n > c.quantity := not_lt.mpr hle
  simp only [applyOutward, h, hn2, hle2, if_false]

theorem applyAdjustment_ok (s : Store) (componentId : Nat) (c : Component) (n : Int)
    (r a : String) (h : findComponent s componentId = some c) (hn : 0 ≤ n) :
    applyAdjustment s componentId n (some r) a = commit s c Action.adjustment n r a := by
  have hn2 : ¬ n < 0 := not_lt.mpr hn
  simp only [applyAdjustment, h, hn2, if_false]

theorem evaluateCrossing_isSome (componentId : Nat) (p n t : Int) :
    (evaluateCrossing componentId p n t).isSome = isCrossing p n t := by
  unfold evaluateCrossing isCrossing
  cases lowStockState p t <;> cases lowStockState n t <;> rfl

/-! ## The ledger claims -/

/-- C1 (ledger consistency): for every component of the store and every finite
sequence of ledger calls, each succeeding or failing, the log the store had is
kept as a prefix, and the component's quantity after the sequence is its
initial quantity plus the sum of `quantity_changed` over the log entries the
sequence appended for it. -/
theorem ledger_consistency (s : Store) (ops : List LedgerOp) (componentId : Nat)
    (c : Component) (h : findComponent s componentId = some c) :
    (applyOps s ops).log.take s.log.length = s.log ∧
    ∃ c1, findComponent (applyOps s ops) componentId = some c1 ∧
      c1.quantity
        = c.quantity + totalChange (appendedEntries s (applyOps s ops) componentId) := by
  obtain ⟨ext, c1, hlog, hfind, hq⟩ := applyOps_ledger ops s componentId c h
  refine ⟨?_, c1, hfind, ?_⟩
  · rw [hlog]; simp
  · rw [hq]
    simp [appendedEntries, hlog]

theorem ledger_consistency_witness :
    findComponent exampleStore 1 = some ⟨1, 20, 10⟩ ∧
    ((applyOps exampleStore exampleOps).log.take exampleStore.log.length = exampleStore.log ∧
     ∃ c1, findComponent (applyOps exampleStore exampleOps) 1 = some c1 ∧
       c1.quantity
         = (20 : Int)
           + totalChange (appendedEntries exampleStore (applyOps exampleStore exampleOps) 1)) :=
  ⟨by decide, ledger_consistency exampleStore exampleOps 1 ⟨1, 20, 10⟩ (by decide)⟩

/-- C2 (outward never overdraws): for a component of the store with quantity
`q ≥ 0`, an outward call for `n > q` fails with `InsufficientStock` and returns
the store unchanged (no log entry, no dispatch, quantity still `q`, not clamped
to zero); for `0 < n ≤ q` it succeeds, the new quantity is `q - n`, and that
quantity is not negative. -/
theorem applyOutward_never_overdraws (s : Store) (componentId : Nat) (c : Component)
    (n : Int) (r a : String) (h : findComponent s componentId = some c)
    (hq : 0 ≤ c.quantity) :
    (c.quantity < n →
      applyOutward s componentId n (some r) a
        = (s, Except.error LedgerError.InsufficientStock)) ∧
    (0 < n → n ≤ c.quantity →
      ∃ t rc, applyOutward s componentId n (some r) a = (t, Except.ok rc) ∧
        findComponent t componentId = some { c with quantity := c.quantity - n } ∧
        rc.component.quantity = c.quantity - n ∧
        t.log = s.log ++ [rc.entry] ∧
        0 ≤ c.quantity - n) := by
  constructor
  · intro hlt
    have hn2 : ¬ n ≤ 0 := by omega
    have hgt : n > c.quantity := hlt
    simp only [applyOutward, h, hn2, hgt, if_false, if_true]
  · intro hn hle
    have hid := findComponent_id_eq s componentId c h
    refine ⟨_, _, (applyOutward_ok s componentId c n r a h hn hle).trans rfl, ?_, rfl, rfl, ?_⟩
    · subst hid
      exact findComponent_commit_same s c Action.outward (c.quantity - n) r a h
    · omega

theorem applyOutward_never_overdraws_witness :
    findComponent exampleStore 2 = some ⟨2, 10, 5⟩ ∧ (0 : Int) ≤ 10 ∧
    applyOutward exampleStore 2 11 (some "build") "asha"
      = (exampleStore, Except.error LedgerError.InsufficientStock) ∧
    (∃ t rc, applyOutward exampleStore 2 7 (some "build") "asha" = (t, Except.ok rc) ∧
      findComponent t 2 = some ⟨2, 10 - 7, 5⟩ ∧
      rc.component.quantity = 10 - 7 ∧
      t.log = exampleStore.log ++ [rc.entry] ∧
      (0 : Int) ≤ 10 - 7) :=
  ⟨by decide, by decide,
   (applyOutward_never_overdraws exampleStore 2 ⟨2, 10, 5⟩ 11 "build" "asha"
     (by decide) (by decide)).1 (by decide),
   (applyOutward_never_overdraws exampleStore 2 ⟨2, 10, 5⟩ 7 "build" "asha"
     (by decide) (by decide)).2 (by decide) (by decide)⟩

/-- C3 (threshold crossing): the monitor emits an event exactly when the
low-stock state of the previous quantity differs from that of the new quantity,
so it emits nothing on a true→true or false→false transition, whatever the
change in quantity.  With threshold 5: 6→5 emits one `low_stock` event, 5→4
emits none, 4→6 emits one `restocked` event; carried out as ledger calls the
three transitions dispatch exactly these two events. -/
theorem crossing_iff_state_differs (componentId : Nat) (previous_quantity new_quantity
    threshold : Int) :
    ((evaluateCrossing componentId previous_quantity new_quantity threshold).isSome = true ↔
      lowStockState previous_quantity threshold ≠ lowStockState new_quantity threshold) ∧
    evaluateCrossing componentId 6 5 5
      = some ⟨componentId, EventType.low_stock, some Priority.high, 5, 5⟩ ∧
    evaluateCrossing componentId 5 4 5 = none ∧
    evaluateCrossing componentId 4 6 5
      = some ⟨componentId, EventType.restocked, none, 6, 5⟩ ∧
    (applyOps crossingStore crossingOps).dispatched
      = [⟨7, EventType.low_stock, some Priority.high, 5, 5⟩,
         ⟨7, EventType.restocked, none, 6, 5⟩] := by
  refine ⟨?_, ?_, ?_, ?_, ?_⟩
  · unfold evaluateCrossing
    cases lowStockState previous_quantity threshold <;>
      cases lowStockState new_quantity threshold <;> simp
  · simp [evaluateCrossing, lowStockState, lowStockPriority]
  · simp [evaluateCrossing, lowStockState]
  · simp [evaluateCrossing, lowStockState]
  · decide

/-- C4 (event type and priority): a crossing into low stock (false→true) emits
a `low_stock` event whose priority is `critical` when the new quantity is 0 and
`high` otherwise; a crossing out of low stock (true→false) emits a `restocked`
event.  On the example store (quantity 20, threshold 10) an outward call of 12
gives quantity 8, the entry 20→8 with change -12 and a `low_stock` event at
priority `high`; the following inward call of 5 gives quantity 13, the entry
8→13 with change +5 and a `restocked` event. -/
theorem crossing_event_type_priority (componentId : Nat) (previous_quantity new_quantity
    threshold : Int) :
    (lowStockState previous_quantity threshold = false →
      lowStockState new_quantity threshold = true →
      ∃ ev, evaluateCrossing componentId previous_quantity new_quantity threshold = some ev ∧
        ev.type = EventType.low_stock ∧
        (new_quantity = 0 → ev.priority = some Priority.critical) ∧
        (new_quantity ≠ 0 → ev.priority = some Priority.high) ∧
        ev.componentId = componentId ∧ ev.quantity = new_quantity ∧
        ev.threshold = threshold) ∧
    (lowStockState previous_quantity threshold = true →
      lowStockState new_quantity threshold = false →
      ∃ ev, evaluateCrossing componentId previous_quantity new_quantity threshold = some ev ∧
        ev.type = EventType.restocked ∧
        ev.componentId = componentId ∧ ev.quantity = new_quantity ∧
        ev.threshold = threshold) ∧
    applyOutward exampleStore 1 12 (some "build") "asha"
      = ({ components := [⟨1, 8, 10⟩, ⟨2, 10, 5⟩],
           log := [⟨1, Action.outward, 20, 8, -12, "build", "asha"⟩],
           dispatched := [⟨1, EventType.low_stock, some Priority.high, 8, 10⟩] },
         Except.ok ⟨⟨1, 8, 10⟩, ⟨1, Action.outward, 20, 8, -12, "build", "asha"⟩,
           some ⟨1, EventType.low_stock, some Priority.high, 8, 10⟩⟩) ∧
    applyInward (applyOutward exampleStore 1 12 (some "build") "asha").1 1 5
        (some "restock") "ravi"
      = ({ components := [⟨1, 13, 10⟩, ⟨2, 10, 5⟩],
           log := [⟨1, Action.outward, 20, 8, -12, "build", "asha"⟩,
                   ⟨1, Action.inward, 8, 13, 5, "restock", "ravi"⟩],
           dispatched := [⟨1, EventType.low_stock, some Priority.high, 8, 10⟩,
                          ⟨1, EventType.restocked, none, 13, 10⟩] },
         Except.ok ⟨⟨1, 13, 10⟩, ⟨1, Action.inward, 8, 13, 5, "restock", "ravi"⟩,
           some ⟨1, EventType.restocked, none, 13, 10⟩⟩) := by
  refine ⟨?_, ?_, ?_, ?_⟩
  · intro hp hn
    refine ⟨⟨componentId, EventType.low_stock, some (lowStockPriority new_quantity),
      new_quantity, threshold⟩, by simp only [evaluateCrossing, hp, hn], rfl, ?_, ?_,
      rfl, rfl, rfl⟩
    · intro h0; simp [lowStockPriority, h0]
    · intro h0; simp [lowStockPriority, h0]
  · intro hp hn
    exact ⟨⟨componentId, EventType.restocked, none, new_quantity, threshold⟩,
      by simp only [evaluateCrossing, hp, hn], rfl, rfl, rfl, rfl⟩
  · rfl
  · rfl

theorem crossing_event_type_priority_witness :
    lowStockState 20 10 = false ∧ lowStockState 8 10 = true ∧
    lowStockState 13 10 = false ∧
    (∃ ev, evaluateCrossing 1 20 8 10 = some ev ∧
      ev.type = EventType.low_stock ∧
      ((8 : Int) = 0 → ev.priority = some Priority.critical) ∧
      ((8 : Int) ≠ 0 → ev.priority = some Priority.high) ∧
      ev.componentId = 1 ∧ ev.quantity = 8 ∧ ev.threshold = 10) ∧
    (∃ ev, evaluateCrossing 1 8 13 10 = some ev ∧
      ev.type = EventType.restocked ∧
      ev.componentId = 1 ∧ ev.quantity = 13 ∧ ev.threshold = 10) :=
  ⟨by decide, by decide, by decide,
   (crossing_event_type_priority 1 20 8 10).1 (by decide) (by decide),
   (crossing_event_type_priority 1 8 13 10).2.1 (by decide) (by decide)⟩

/-- C5 (adjustment is idempotent in effect): for a component of the store and
`newQuantity ≥ 0`, two adjustment calls to `newQuantity` in a row both succeed;
the quantity is `newQuantity` after each; the second call leaves the component
records as the first left them and appends one log entry, whose
`quantity_changed` is 0 and whose previous and new quantity are both
`newQuantity`. -/
theorem applyAdjustment_twice (s : Store) (componentId : Nat) (c : Component)
    (newQuantity : Int) (r1 a1 r2 a2 : String)
    (h : findComponent s componentId = some c) (hn : 0 ≤ newQuantity) :
    ∃ t1 rc1 t2 rc2,
      applyAdjustment s componentId newQuantity (some r1) a1 = (t1, Except.ok rc1) ∧
      applyAdjustment t1 componentId newQuantity (some r2) a2 = (t2, Except.ok rc2) ∧
      findComponent t1 componentId = some { c with quantity := newQuantity } ∧
      findComponent t2 componentId = some { c with quantity := newQuantity } ∧
      t2.components = t1.components ∧
      t2.log = t1.log ++ [rc2.entry] ∧
      rc2.entry.quantity_changed = 0 ∧
      rc2.entry.previous_quantity = newQuantity ∧
      rc2.entry.new_quantity = newQuantity := by
  have hid := findComponent_id_eq s componentId c h
  subst hid
  have h1 : findComponent (commit s c Action.adjustment newQuantity r1 a1).1 c.id
      = some { c with quantity := newQuantity } :=
    findComponent_commit_same s c Action.adjustment newQuantity r1 a1 h
  have e1 := applyAdjustment_ok s c.id c newQuantity r1 a1 h hn
  have e2 := applyAdjustment_ok (commit s c Action.adjustment newQuantity r1 a1).1 c.id
    { c with quantity := newQuantity } newQuantity r2 a2 h1 hn
  refine ⟨_, _, _, _, e1.trans rfl, e2.trans rfl, h1, ?_, ?_, rfl, ?_, rfl, rfl⟩
  · exact findComponent_commit_same _ { c with quantity := newQuantity }
      Action.adjustment newQuantity r2 a2 h1
  · exact setQuantity_same_quantity _ c.id { c with quantity := newQuantity } h1
  · show newQuantity - newQuantity = 0
    omega

theorem applyAdjustment_twice_witness :
    findComponent exampleStore 1 = some ⟨1, 20, 10⟩ ∧ (0 : Int) ≤ 4 ∧
    ∃ t1 rc1 t2 rc2,
      applyAdjustment exampleStore 1 4 (some "stock count") "admin" = (t1, Except.ok rc1) ∧
      applyAdjustment t1 1 4 (some "recount") "admin" = (t2, Except.ok rc2) ∧
      findComponent t1 1 = some ⟨1, 4, 10⟩ ∧
      findComponent t2 1 = some ⟨1, 4, 10⟩ ∧
      t2.components = t1.components ∧
      t2.log = t1.log ++ [rc2.entry] ∧
      rc2.entry.quantity_changed = 0 ∧
      rc2.entry.previous_quantity = 4 ∧
      rc2.entry.new_quantity = 4 :=
  ⟨by decide, by decide,
   applyAdjustment_twice exampleStore 1 ⟨1, 20, 10⟩ 4 "stock count" "admin" "recount" "admin"
     (by decide) (by decide)⟩

/-- C6 (inward): for a component of the store with quantity `q`, an inward call
with `n ≤ 0` fails with `InvalidArgument` and returns the store unchanged; with
any `n > 0`, however large, it succeeds, the new quantity is `q + n`, and the
one log entry it appends has previous quantity `q`, new quantity `q + n` and
`quantity_changed = n`. -/
theorem applyInward_contract (s : Store) (componentId : Nat) (c : Component) (n : Int)
    (reason : Option String) (r a : String) (h : findComponent s componentId = some c) :
    (n ≤ 0 →
      applyInward s componentId n reason a = (s, Except.error LedgerError.InvalidArgument)) ∧
    (0 < n →
      ∃ t rc, applyInward s componentId n (some r) a = (t, Except.ok rc) ∧
        findComponent t componentId = some { c with quantity := c.quantity + n } ∧
        rc.component.quantity = c.quantity + n ∧
        t.log = s.log ++ [rc.entry] ∧
        rc.entry.previous_quantity = c.quantity ∧
        rc.entry.new_quantity = c.quantity + n ∧
        rc.entry.quantity_changed = n ∧
        rc.entry.action = Action.inward ∧ rc.entry.component = componentId) := by
  have hid := findComponent_id_eq s componentId c h
  subst hid
  constructor
  · intro hn
    simp only [applyInward, h, hn, if_true]
  · intro hn
    refine ⟨_, _, (applyInward_ok s c.id c n r a h hn).trans rfl, ?_, rfl, rfl, rfl, rfl, ?_,
      rfl, rfl⟩
    · exact findComponent_commit_same s c Action.inward (c.quantity + n) r a h
    · show c.quantity + n - c.quantity = n
      omega

theorem applyInward_contract_witness :
    findComponent exampleStore 1 = some ⟨1, 20, 10⟩ ∧
    applyInward exampleStore 1 (-3) (some "typo") "ravi"
      = (exampleStore, Except.error LedgerError.InvalidArgument) ∧
    (∃ t rc, applyInward exampleStore 1 1000000 (some "bulk order") "ravi"
        = (t, Except.ok rc) ∧
      findComponent t 1 = some ⟨1, 20 + 1000000, 10⟩ ∧
      rc.component.quantity = 20 + 1000000 ∧
      t.log = exampleStore.log ++ [rc.entry] ∧
      rc.entry.previous_quantity = 20 ∧
      rc.entry.new_quantity = 20 + 1000000 ∧
      rc.entry.quantity_changed = 1000000 ∧
      rc.entry.action = Action.inward ∧ rc.entry.component = 1) :=
  ⟨by decide,
   (applyInward_contract exampleStore 1 ⟨1, 20, 10⟩ (-3) (some "typo") "typo" "ravi"
     (by decide)).1 (by decide),
   (applyInward_contract exampleStore 1 ⟨1, 20, 10⟩ 1000000 none "bulk order" "ravi"
     (by decide)).2 (by decide)⟩

/-- C7 (adjustment): for a component of the store with quantity `q`, an
adjustment call with `newQuantity < 0` fails with `InvalidArgument` and returns
the store unchanged; with `newQuantity ≥ 0` it succeeds, sets the quantity to
exactly `newQuantity` and logs `quantity_changed = newQuantity - q`, which is
negative, zero or positive as `newQuantity` is below, equal to or above `q`. -/
theorem applyAdjustment_contract (s : Store) (componentId : Nat) (c : Component)
    (newQuantity : Int) (reason : Option String) (r a : String)
    (h : findComponent s componentId = some c) :
    (newQuantity < 0 →
      applyAdjustment s componentId newQuantity reason a
        = (s, Except.error LedgerError.InvalidArgument)) ∧
    (0 ≤ newQuantity →
      ∃ t rc, applyAdjustment s componentId newQuantity (some r) a = (t, Except.ok rc) ∧
        findComponent t componentId = some { c with quantity := newQuantity } ∧
        rc.component.quantity = newQuantity ∧
        t.log = s.log ++ [rc.entry] ∧
        rc.entry.quantity_changed = newQuantity - c.quantity ∧
        rc.entry.previous_quantity = c.quantity ∧
        rc.entry.new_quantity = newQuantity ∧
        (rc.entry.quantity_changed < 0 ↔ newQuantity < c.quantity) ∧
        (rc.entry.quantity_changed = 0 ↔ newQuantity = c.quantity) ∧
        (0 < rc.entry.quantity_changed ↔ c.quantity < newQuantity)) := by
  have hid := findComponent_id_eq s componentId c h
  subst hid
  constructor
  · intro hn
    simp only [applyAdjustment, h, hn, if_true]
  · intro hn
    refine ⟨_, _, (applyAdjustment_ok s c.id c newQuantity r a h hn).trans rfl, ?_, rfl, rfl,
      rfl, rfl, rfl, ?_, ?_, ?_⟩
    · exact findComponent_commit_same s c Action.adjustment newQuantity r a h
    · show newQuantity - c.quantity < 0 ↔ newQuantity < c.quantity
      omega
    · show newQuantity - c.quantity = 0 ↔ newQuantity = c.quantity
      omega
    · show 0 < newQuantity - c.quantity ↔ c.quantity < newQuantity
      omega

theorem applyAdjustment_contract_witness :
    findComponent exampleStore 1 = some ⟨1, 20, 10⟩ ∧
    applyAdjustment exampleStore 1 (-1) (some "stock count") "admin"
      = (exampleStore, Except.error LedgerError.InvalidArgument) ∧
    (∃ t rc, applyAdjustment exampleStore 1 0 (some "stock count") "admin"
        = (t, Except.ok rc) ∧
      findComponent t 1 = some ⟨1, 0, 10⟩ ∧
      rc.component.quantity = 0 ∧
      t.log = exampleStore.log ++ [rc.entry] ∧
      rc.entry.quantity_changed = 0 - 20 ∧
      rc.entry.previous_quantity = 20 ∧
      rc.entry.new_quantity = 0 ∧
      (rc.entry.quantity_changed < 0 ↔ (0 : Int) < 20) ∧
      (rc.entry.quantity_changed = 0 ↔ (0 : Int) = 20) ∧
      (0 < rc.entry.quantity_changed ↔ (20 : Int) < 0)) :=
  ⟨by decide,
   (applyAdjustment_contract exampleStore 1 ⟨1, 20, 10⟩ (-1) (some "stock count")
     "stock count" "admin" (by decide)).1 (by decide),
   (applyAdjustment_contract exampleStore 1 ⟨1, 20, 10⟩ 0 none "stock count" "admin"
     (by decide)).2 (by decide)⟩

/-- C8 (one entry, at most one dispatch): a successful ledger call appends
exactly one log entry, the one it returns, and dispatches at most one event; it
dispatches one exactly when the transaction crosses the component's threshold.
A failed call returns the store unchanged: no log entry, no dispatch. -/
theorem one_entry_at_most_one_dispatch (s : Store) (op : LedgerOp) :
    (∀ t rc, applyOp s op = (t, Except.ok rc) →
      t.log = s.log ++ [rc.entry] ∧
      t.log.length = s.log.length + 1 ∧
      t.dispatched = s.dispatched ++ rc.event.toList ∧
      t.dispatched.length ≤ s.dispatched.length + 1 ∧
      (t.dispatched.length = s.dispatched.length + 1 ↔
        isCrossing rc.entry.previous_quantity rc.entry.new_quantity
          rc.component.critical_low_threshold = true)) ∧
    (∀ t e, applyOp s op = (t, Except.error e) →
      t = s ∧ t.log = s.log ∧ t.dispatched = s.dispatched) := by
  rcases applyOp_cases s op with ⟨e1, he⟩ | ⟨c, action, q, r, a, _, hc⟩
  · constructor
    · intro t rc heq
      rw [he] at heq
      simp at heq
    · intro t e heq
      rw [he] at heq
      have hts : s = t := (Prod.mk.inj heq).1
      subst hts
      exact ⟨rfl, rfl, rfl⟩
  · constructor
    · intro t rc heq
      rw [hc] at heq
      simp only [commit, Prod.mk.injEq, Except.ok.injEq] at heq
      obtain ⟨ht, hrc⟩ := heq
      subst ht
      subst hrc
      have hsome := evaluateCrossing_isSome c.id c.quantity q c.critical_low_threshold
      refine ⟨rfl, by simp, rfl, ?_, ?_⟩
      · cases evaluateCrossing c.id c.quantity q c.critical_low_threshold <;> simp
      · simp only []
        rw [← hsome]
        cases evaluateCrossing c.id c.quantity q c.critical_low_threshold <;> simp
    · intro t e heq
      rw [hc] at heq
      simp [commit] at heq

theorem one_entry_at_most_one_dispatch_witness :
    ((applyOp exampleStore (LedgerOp.outward 1 12 (some "build") "asha")).1.log.length
        = exampleStore.log.length + 1 ∧
      (applyOp exampleStore (LedgerOp.outward 1 12 (some "build") "asha")).1.dispatched.length
        = exampleStore.dispatched.length + 1) ∧
    (applyOp exampleStore (LedgerOp.outward 2 11 (some "build") "asha")).1 = exampleStore :=
  ⟨⟨((one_entry_at_most_one_dispatch exampleStore
        (LedgerOp.outward 1 12 (some "build") "asha")).1 _ _ rfl).2.1,
    (((one_entry_at_most_one_dispatch exampleStore
        (LedgerOp.outward 1 12 (some "build") "asha")).1 _ _ rfl).2.2.2.2).2 (by decide)⟩,
   ((one_entry_at_most_one_dispatch exampleStore
        (LedgerOp.outward 2 11 (some "build") "asha")).2 _ _ rfl).1⟩

/-! ## History text search -/

theorem fieldIncludes_true_iff (toLowerCase : String → String) (field : Option String)
    (searchTerm : String) :
    fieldIncludes toLowerCase field searchTerm = some true ↔
      ∃ text ∈ field.toList, (toLowerCase searchTerm).data <:+: (toLowerCase text).data := by
  cases field with
  | none => simp [fieldIncludes]
  | some v => simp [fieldIncludes, includes]

theorem jsOr_true_iff (a b : Option Bool) :
    jsOr a b = some true ↔ a = some true ∨ b = some true := by
  unfold jsOr
  by_cases ha : a = some true
  · simp [ha]
  · simp [ha]

/-- The callback of the search filter holds exactly on the entries that
`TermMatches` describes. -/
theorem searchCallback_iff (toLowerCase : String → String) (searchTerm : String)
    (log : HistoryLog) :
    searchCallback toLowerCase searchTerm log = true ↔
      TermMatches toLowerCase searchTerm log := by
  unfold searchCallback toBoolean TermMatches searchableTexts
  rw [beq_iff_eq, jsOr_true_iff, jsOr_true_iff, jsOr_true_iff]
  simp only [fieldIncludes_true_iff, List.mem_append]
  constructor
  · rintro (((⟨t, ht, hm⟩ | ⟨t, ht, hm⟩) | ⟨t, ht, hm⟩) | ⟨t, ht, hm⟩)
    · exact ⟨t, Or.inl (Or.inl (Or.inl ht)), hm⟩
    · exact ⟨t, Or.inl (Or.inl (Or.inr ht)), hm⟩
    · exact ⟨t, Or.inl (Or.inr ht), hm⟩
    · exact ⟨t, Or.inr ht, hm⟩
  · rintro ⟨t, (((ht | ht) | ht) | ht), hm⟩
    · exact Or.inl (Or.inl (Or.inl ⟨t, ht, hm⟩))
    · exact Or.inl (Or.inl (Or.inr ⟨t, ht, hm⟩))
    · exact Or.inl (Or.inr ⟨t, ht, hm⟩)
    · exact Or.inr ⟨t, ht, hm⟩

/-- C10 (history text search): for every list of log entries and every
non-empty search term, the fallback search filter returns exactly the entries
in which the lower-cased term is a substring of the lower-cased component
name, part number, reason or actor name, in their original relative order; an
entry whose component, reason and user are all missing is never kept (and the
filter is a total function: a missing field does not raise); with the empty
term every entry is kept. -/
theorem history_search_filter (toLowerCase : String → String) (searchTerm : String)
    (allLogs : List HistoryLog) (hterm : searchTerm ≠ "") :
    searchFilter toLowerCase searchTerm allLogs
      = allLogs.filter (fun log => decide (TermMatches toLowerCase searchTerm log)) ∧
    List.Sublist (searchFilter toLowerCase searchTerm allLogs) allLogs ∧
    (∀ log, log ∈ searchFilter toLowerCase searchTerm allLogs ↔
      log ∈ allLogs ∧ TermMatches toLowerCase searchTerm log) ∧
    (∀ log ∈ searchFilter toLowerCase searchTerm allLogs,
      ¬ (log.component = none ∧ log.reason = none ∧ log.user = none)) ∧
    searchFilter toLowerCase "" allLogs = allLogs := by
  have hfilter : searchFilter toLowerCase searchTerm allLogs
      = allLogs.filter (fun log => decide (TermMatches toLowerCase searchTerm log)) := by
    simp only [searchFilter, hterm, ne_eq, not_false_eq_true, if_true]
    apply List.filter_congr
    intro log _
    rw [Bool.eq_iff_iff, decide_eq_true_iff]
    exact searchCallback_iff toLowerCase searchTerm log
  have hmem : ∀ log, log ∈ searchFilter toLowerCase searchTerm allLogs ↔
      log ∈ allLogs ∧ TermMatches toLowerCase searchTerm log := by
    intro log
    rw [hfilter, List.mem_filter, decide_eq_true_iff]
  refine ⟨hfilter, ?_, hmem, ?_, ?_⟩
  · rw [hfilter]
    exact List.filter_sublist allLogs
  · intro log hlog hmissing
    obtain ⟨hc, hr, hu⟩ := hmissing
    obtain ⟨t, ht, _⟩ := ((hmem log).mp hlog).2
    simp [searchableTexts, hc, hr, hu] at ht
  · simp [searchFilter]

theorem history_search_filter_witness :
    "esp" ≠ "" ∧
    (searchFilter lowerAscii "esp" exampleLogs).map (fun log => log.action)
      = ["outward", "inward", "adjustment"] ∧
    searchFilter lowerAscii "esp" exampleLogs
      = exampleLogs.filter (fun log => decide (TermMatches lowerAscii "esp" log)) ∧
    List.Sublist (searchFilter lowerAscii "esp" exampleLogs) exampleLogs ∧
    (∀ log, log ∈ searchFilter lowerAscii "esp" exampleLogs ↔
      log ∈ exampleLogs ∧ TermMatches lowerAscii "esp" log) ∧
    (∀ log ∈ searchFilter lowerAscii "esp" exampleLogs,
      ¬ (log.component = none ∧ log.reason = none ∧ log.user = none)) ∧
    searchFilter lowerAscii "" exampleLogs = exampleLogs :=
  ⟨by decide, by decide, history_search_filter lowerAscii "esp" exampleLogs (by decide)⟩

/-! ## History fallback: collection, sort and single page -/

theorem sortNewestFirst_perm (logs : List HistoryLog) :
    List.Perm (sortNewestFirst logs) logs :=
  List.perm_insertionSort _ logs

theorem sortNewestFirst_length (logs : List HistoryLog) :
    (sortNewestFirst logs).length = logs.length :=
  (sortNewestFirst_perm logs).length_eq

theorem sortNewestFirst_sorted (logs : List HistoryLog) :
    List.Pairwise (fun a b => b.createdAt ≤ a.createdAt) (sortNewestFirst logs) := by
  haveI : IsTotal HistoryLog (fun a b => b.createdAt ≤ a.createdAt) :=
    ⟨fun a b => le_total b.createdAt a.createdAt⟩
  haveI : IsTrans HistoryLog (fun a b => b.createdAt ≤ a.createdAt) :=
    ⟨fun _ _ _ hab hbc => le_trans hbc hab⟩
  exact List.sorted_insertionSort (fun a b : HistoryLog => b.createdAt ≤ a.createdAt) logs

/-- The sort is stable: the entries with one timestamp keep the order they had
in the list that was sorted. -/
theorem sortNewestFirst_stable (logs : List HistoryLog) (t : Int) :
    (sortNewestFirst logs).filter (fun log => log.createdAt == t)
      = logs.filter (fun log => log.createdAt == t) := by
  have hpair : List.Pairwise (fun a b : HistoryLog => b.createdAt ≤ a.createdAt)
      (logs.filter (fun log => log.createdAt == t)) := by
    rw [List.pairwise_iff_forall_sublist]
    intro a b hab
    have ha : a ∈ logs.filter (fun log => log.createdAt == t) := hab.subset (by simp)
    have hb : b ∈ logs.filter (fun log => log.createdAt == t) := hab.subset (by simp)
    have ha2 : a.createdAt = t := by simpa using (List.mem_filter.mp ha).2
    have hb2 : b.createdAt = t := by simpa using (List.mem_filter.mp hb).2
    rw [ha2, hb2]
  have hsub : List.Sublist (logs.filter (fun log => log.createdAt == t))
      (sortNewestFirst logs) :=
    List.sublist_insertionSort hpair (List.filter_sublist logs)
  have hsub2 : List.Sublist (logs.filter (fun log => log.createdAt == t))
      ((sortNewestFirst logs).filter (fun log => log.createdAt == t)) := by
    have := hsub.filter (fun log => log.createdAt == t)
    simpa using this
  have hlen : ((sortNewestFirst logs).filter (fun log => log.createdAt == t)).length
      = (logs.filter (fun log => log.createdAt == t)).length :=
    ((sortNewestFirst_perm logs).filter _).length_eq
  exact (hsub2.eq_of_length hlen.symm).symm

theorem foldl_collect_mem (logsOf : Nat → Option (List HistoryLog)) (l : List Nat)
    (acc : List HistoryLog) (log : HistoryLog) :
    log ∈ l.foldl
        (fun allLogs component =>
          match logsOf component with
          | some logs => allLogs ++ logs
          | none => allLogs)
        acc ↔
      log ∈ acc ∨ ∃ c ∈ l, ∃ logs, logsOf c = some logs ∧ log ∈ logs := by
  induction l generalizing acc with
  | nil => simp
  | cons d ds ih =>
    rw [List.foldl_cons, ih]
    cases hd : logsOf d with
    | none =>
      constructor
      · rintro (h | ⟨c, hc, logs, hl, hm⟩)
        · exact Or.inl h
        · exact Or.inr ⟨c, List.mem_cons_of_mem _ hc, logs, hl, hm⟩
      · rintro (h | ⟨c, hc, logs, hl, hm⟩)
        · exact Or.inl h
        · rcases List.mem_cons.mp hc with rfl | hc2
          · rw [hd] at hl; cases hl
          · exact Or.inr ⟨c, hc2, logs, hl, hm⟩
    | some ls =>
      constructor
      · rintro (h | ⟨c, hc, logs, hl, hm⟩)
        · rcases List.mem_append.mp h with h1 | h2
          · exact Or.inl h1
          · exact Or.inr ⟨d, List.mem_cons_self _ _, ls, hd, h2⟩
        · exact Or.inr ⟨c, List.mem_cons_of_mem _ hc, logs, hl, hm⟩
      · rintro (h | ⟨c, hc, logs, hl, hm⟩)
        · exact Or.inl (List.mem_append.mpr (Or.inl h))
        · rcases List.mem_cons.mp hc with rfl | hc2
          · rw [hd] at hl
            cases hl
            exact Or.inl (List.mem_append.mpr (Or.inr hm))
          · exact Or.inr ⟨c, hc2, logs, hl, hm⟩

/-- The fallback collects exactly the logs answered for the first ten
components. -/
theorem mem_collectLogs (components : List Nat) (logsOf : Nat → Option (List HistoryLog))
    (log : HistoryLog) :
    log ∈ collectLogs components logsOf ↔
      ∃ c ∈ components.take 10, ∃ logs, logsOf c = some logs ∧ log ∈ logs := by
  unfold collectLogs
  rw [foldl_collect_mem]
  simp

theorem searchFilter_empty (toLowerCase : String → String) (allLogs : List HistoryLog) :
    searchFilter toLowerCase "" allLogs = allLogs := by
  simp [searchFilter]

theorem actionFilterStep_all (logs : List HistoryLog) : actionFilterStep "all" logs = logs := by
  simp [actionFilterStep]

theorem searchFilter_sublist (toLowerCase : String → String) (searchTerm : String)
    (allLogs : List HistoryLog) :
    List.Sublist (searchFilter toLowerCase searchTerm allLogs) allLogs := by
  unfold searchFilter
  split
  · exact List.filter_sublist allLogs
  · exact List.Sublist.refl allLogs

theorem actionFilterStep_sublist (actionFilter : String) (logs : List HistoryLog) :
    List.Sublist (actionFilterStep actionFilter logs) logs := by
  unfold actionFilterStep
  split
  · exact List.filter_sublist logs
  · exact List.Sublist.refl logs

/-! ## The history claims -/

/-- C11 (history ordering, as the fallback does it): for every component
list and every log answer, the list the fallback returns is ordered by
`createdAt` descending, and the entries with one and the same timestamp appear
in the order in which the fallback collected them (component after component,
each component's logs as its answer lists them): they are that part of the
filtered collection, unchanged, and so a sub-list of the collection. -/
theorem history_order_newest_first_stable (toLowerCase : String → String)
    (st : HistoryState) (components : List Nat)
    (logsOf : Nat → Option (List HistoryLog)) :
    List.Pairwise (fun a b => b.createdAt ≤ a.createdAt)
      (fetchLogsFallback toLowerCase st components logsOf).1 ∧
    (∀ t : Int,
      (fetchLogsFallback toLowerCase st components logsOf).1.filter
          (fun log => log.createdAt == t)
        = (actionFilterStep st.actionFilter
            (searchFilter toLowerCase st.searchTerm (collectLogs components logsOf))).filter
          (fun log => log.createdAt == t)) ∧
    (∀ t : Int,
      List.Sublist
        ((fetchLogsFallback toLowerCase st components logsOf).1.filter
          (fun log => log.createdAt == t))
        (collectLogs components logsOf)) := by
  have hstable : ∀ t : Int,
      (fetchLogsFallback toLowerCase st components logsOf).1.filter
          (fun log => log.createdAt == t)
        = (actionFilterStep st.actionFilter
            (searchFilter toLowerCase st.searchTerm (collectLogs components logsOf))).filter
          (fun log => log.createdAt == t) := by
    intro t
    exact sortNewestFirst_stable _ t
  refine ⟨sortNewestFirst_sorted _, hstable, ?_⟩
  intro t
  rw [hstable t]
  exact ((List.filter_sublist _).trans (actionFilterStep_sublist _ _)).trans
    (searchFilter_sublist _ _ _)

/-- C11, counterexample to the tie rule as the specification states it: the
logs of two components carry the same timestamp; the log of component 2 was
written first, but the fallback collects component 1 first and shows its log
first, so the ties are not in write order. -/
theorem history_ties_not_in_write_order :
    (fetchLogsFallback lowerAscii initialState [1, 2] tieLogsOf).1
      = [sampleLog "written-second" 100, sampleLog "written-first" 100] ∧
    ¬ TiesInWriteOrder tieWritten
        (fetchLogsFallback lowerAscii initialState [1, 2] tieLogsOf).1 := by
  have hres : (fetchLogsFallback lowerAscii initialState [1, 2] tieLogsOf).1
      = [sampleLog "written-second" 100, sampleLog "written-first" 100] := by
    decide
  refine ⟨hres, ?_⟩
  intro h
  have h100 := h 100
  rw [hres] at h100
  revert h100
  decide

theorem fetchLogsFallback_perm (toLowerCase : String → String) (st : HistoryState)
    (components : List Nat) (logsOf : Nat → Option (List HistoryLog)) :
    List.Perm (fetchLogsFallback toLowerCase st components logsOf).1
      (actionFilterStep st.actionFilter
        (searchFilter toLowerCase st.searchTerm (collectLogs components logsOf))) :=
  sortNewestFirst_perm _

theorem fetchLogsFallback_initial_length (toLowerCase : String → String)
    (currentPage : Nat) (components : List Nat) (logsOf : Nat → Option (List HistoryLog)) :
    (fetchLogsFallback toLowerCase { initialState with currentPage := currentPage }
        components logsOf).1.length
      = (collectLogs components logsOf).length := by
  have h := (fetchLogsFallback_perm toLowerCase
    { initialState with currentPage := currentPage } components logsOf).length_eq
  rw [h]
  simp [initialState, searchFilter_empty, actionFilterStep_all]

theorem collectLogs_many : (collectLogs [1] manyLogsOf).length = 120 := by
  show (([] : List HistoryLog)
    ++ (List.range 120).map (fun i : Nat => sampleLog (toString i) (120 - (i : Int)))).length = 120
  rw [List.nil_append, List.length_map, List.length_range]

/-- C12 (history pagination, as the fallback does it): for every state,
component list and log answer the fallback returns one page: it holds every
entry that matches the search term and the action filter exactly once (it is a
rearrangement of them), the metadata say page 1 of 1 with `hasNext` and
`hasPrev` false, and the page asked for does not change the result. -/
theorem history_fallback_single_page (toLowerCase : String → String) (st : HistoryState)
    (currentPage : Nat) (components : List Nat)
    (logsOf : Nat → Option (List HistoryLog)) :
    List.Perm (fetchLogsFallback toLowerCase st components logsOf).1
      (actionFilterStep st.actionFilter
        (searchFilter toLowerCase st.searchTerm (collectLogs components logsOf))) ∧
    (fetchLogsFallback toLowerCase st components logsOf).2.currentPage = 1 ∧
    (fetchLogsFallback toLowerCase st components logsOf).2.totalPages = 1 ∧
    (fetchLogsFallback toLowerCase st components logsOf).2.hasNext = false ∧
    (fetchLogsFallback toLowerCase st components logsOf).2.hasPrev = false ∧
    fetchLogsFallback toLowerCase { st with currentPage := currentPage } components logsOf
      = fetchLogsFallback toLowerCase st components logsOf :=
  ⟨fetchLogsFallback_perm toLowerCase st components logsOf, rfl, rfl, rfl, rfl, rfl⟩

/-- C12, counterexample: with 120 matching entries and the page size 50 of the
request there would be 3 pages, so page 1 should report `hasNext`; the
fallback returns all 120 entries as page 1 of 1 with `hasNext` false, and
asking for page 2 returns the same 120 entries again. -/
theorem history_pagination_counterexample :
    (fetchLogsFallback lowerAscii initialState [1] manyLogsOf).1.length = 120 ∧
    (requestParams initialState).limit = "50" ∧
    (1 : Nat) < (120 + 50 - 1) / 50 ∧
    (fetchLogsFallback lowerAscii initialState [1] manyLogsOf).2.hasNext = false ∧
    (fetchLogsFallback lowerAscii initialState [1] manyLogsOf).2.totalPages = 1 ∧
    (fetchLogsFallback lowerAscii { initialState with currentPage := 2 } [1] manyLogsOf).1
      = (fetchLogsFallback lowerAscii initialState [1] manyLogsOf).1 := by
  refine ⟨?_, rfl, by decide, rfl, rfl, rfl⟩
  have h := fetchLogsFallback_initial_length lowerAscii 1 [1] manyLogsOf
  exact h.trans collectLogs_many

/-- C13 (size of the result, as the fallback does it): the request asks for
pages of 50, but the fallback returns every entry that matches the search term
and the action filter, however many, and the metadata's total count is the
number of entries returned. -/
theorem history_fallback_total_count (toLowerCase : String → String) (st : HistoryState)
    (components : List Nat) (logsOf : Nat → Option (List HistoryLog)) :
    (requestParams st).limit = "50" ∧
    (fetchLogsFallback toLowerCase st components logsOf).2.totalLogs
      = (fetchLogsFallback toLowerCase st components logsOf).1.length ∧
    (fetchLogsFallback toLowerCase st components logsOf).1.length
      = (actionFilterStep st.actionFilter
          (searchFilter toLowerCase st.searchTerm (collectLogs components logsOf))).length :=
  ⟨rfl, rfl, (fetchLogsFallback_perm toLowerCase st components logsOf).length_eq⟩

/-- C13, counterexample: one component with 120 logs and no filter set; the
fallback returns 120 entries, more than the page size 50. -/
theorem history_page_size_counterexample :
    ¬ ((fetchLogsFallback lowerAscii initialState [1] manyLogsOf).1.length ≤ 50) ∧
    (fetchLogsFallback lowerAscii initialState [1] manyLogsOf).2.totalLogs = 120 := by
  have h : (fetchLogsFallback lowerAscii initialState [1] manyLogsOf).1.length = 120 :=
    (fetchLogsFallback_initial_length lowerAscii 1 [1] manyLogsOf).trans collectLogs_many
  refine ⟨?_, h⟩
  rw [h]
  decide

/-- C14 (date window), the code at the failing inputs: with the date filter
`'all'` the request sends an empty `days`, but `handleExport` asks for 30
days, the same call as with the filter `'30'`; and the fallback returns the
same entries whatever the date filter is, so a window of `d` days excludes
nothing there. -/
theorem history_date_window_defects (toLowerCase : String → String) (format d : String)
    (st : HistoryState) (components : List Nat)
    (logsOf : Nat → Option (List HistoryLog)) :
    (requestParams { st with dateFilter := "all" }).days = "" ∧
    (handleExport format { st with dateFilter := "all" }).days = 30 ∧
    handleExport format { st with dateFilter := "all" }
      = handleExport format { st with dateFilter := "30" } ∧
    (handleExport format { st with dateFilter := "7" }).days = 7 ∧
    fetchLogsFallback toLowerCase { st with dateFilter := d } components logsOf
      = fetchLogsFallback toLowerCase st components logsOf := by
  refine ⟨rfl, ?_, ?_, ?_, rfl⟩
  · simp only [handleExport]
    have h : parseInt "all" = none := by decide
    rw [h]
  · simp only [handleExport]
    have h1 : parseInt "all" = none := by decide
    have h2 : parseInt "30" = some 30 := by decide
    rw [h1, h2]
    simp
  · simp only [handleExport]
    have h : parseInt "7" = some 7 := by decide
    rw [h]
    simp

/-- C15 (action filter): the values of the action select are `all` and the six
log kinds; with `all` the request carries an empty `action` and the fallback
step keeps every entry; with a kind `k` the fallback step returns exactly the
entries whose action equals `k`, in their original order. -/
theorem history_action_filter (st : HistoryState) (k : String) (logs : List HistoryLog)
    (hk : k ≠ "all") :
    actions.map Prod.fst
      = ["all", "inward", "outward", "adjustment", "created", "updated", "deleted"] ∧
    (requestParams { st with actionFilter := "all" }).action = "" ∧
    (requestParams { st with actionFilter := k }).action = k ∧
    actionFilterStep "all" logs = logs ∧
    actionFilterStep k logs = logs.filter (fun log => decide (log.action = k)) ∧
    List.Sublist (actionFilterStep k logs) logs ∧
    (∀ log, log ∈ actionFilterStep k logs ↔ log ∈ logs ∧ log.action = k) := by
  have hstep : actionFilterStep k logs = logs.filter (fun log => decide (log.action = k)) := by
    simp only [actionFilterStep, hk, ne_eq, not_false_eq_true, if_true]
    apply List.filter_congr
    intro log _
    rfl
  refine ⟨rfl, rfl, ?_, actionFilterStep_all logs, hstep, actionFilterStep_sublist k logs, ?_⟩
  · simp [requestParams, hk]
  · intro log
    rw [hstep, List.mem_filter, decide_eq_true_iff]

theorem history_action_filter_witness :
    "inward" ≠ "all" ∧
    (actionFilterStep "inward" exampleLogs).map (fun log => log.createdAt) = [200] ∧
    (actions.map Prod.fst
      = ["all", "inward", "outward", "adjustment", "created", "updated", "deleted"] ∧
    (requestParams { initialState with actionFilter := "all" }).action = "" ∧
    (requestParams { initialState with actionFilter := "inward" }).action = "inward" ∧
    actionFilterStep "all" exampleLogs = exampleLogs ∧
    actionFilterStep "inward" exampleLogs
      = exampleLogs.filter (fun log => decide (log.action = "inward")) ∧
    List.Sublist (actionFilterStep "inward" exampleLogs) exampleLogs ∧
    (∀ log, log ∈ actionFilterStep "inward" exampleLogs ↔
      log ∈ exampleLogs ∧ log.action = "inward")) :=
  ⟨by decide, by decide, history_action_filter initialState "inward" exampleLogs (by decide)⟩

/-- What the fallback shows with no search term and the action filter `all`:
exactly the logs answered for the first ten components of the component list,
each as often as it was answered; logs of later components, and of components
whose log request failed, are not among them. -/
theorem history_fallback_first_ten (toLowerCase : String → String) (st : HistoryState)
    (components : List Nat) (logsOf : Nat → Option (List HistoryLog))
    (hsearch : st.searchTerm = "") (haction : st.actionFilter = "all") :
    List.Perm (fetchLogsFallback toLowerCase st components logsOf).1
      (collectLogs components logsOf) ∧
    (∀ log, log ∈ (fetchLogsFallback toLowerCase st components logsOf).1 ↔
      ∃ c ∈ components.take 10, ∃ logs, logsOf c = some logs ∧ log ∈ logs) := by
  have hperm : List.Perm (fetchLogsFallback toLowerCase st components logsOf).1
      (collectLogs components logsOf) := by
    have h := fetchLogsFallback_perm toLowerCase st components logsOf
    rw [hsearch, haction, searchFilter_empty, actionFilterStep_all] at h
    exact h
  refine ⟨hperm, ?_⟩
  intro log
  rw [hperm.mem_iff, mem_collectLogs]

theorem history_fallback_first_ten_example :
    initialState.searchTerm = "" ∧ initialState.actionFilter = "all" ∧
    (List.Perm (fetchLogsFallback lowerAscii initialState [1, 2] tieLogsOf).1
      (collectLogs [1, 2] tieLogsOf) ∧
    (∀ log, log ∈ (fetchLogsFallback lowerAscii initialState [1, 2] tieLogsOf).1 ↔
      ∃ c ∈ [1, 2].take 10, ∃ logs, tieLogsOf c = some logs ∧ log ∈ logs)) :=
  ⟨rfl, rfl, history_fallback_first_ten lowerAscii initialState [1, 2] tieLogsOf rfl rfl⟩

/-- C18 (complete history), the code at the failing input: eleven components
with one log each and no filter set; the log of the eleventh component is
answered by the server, but it is not among the entries the fallback displays,
which are ten. -/
theorem history_not_complete :
    oneLogEach 10 = some [sampleLog "only" 10] ∧
    (10 : Nat) ∈ List.range 11 ∧
    sampleLog "only" 10 ∉ (fetchLogsFallback lowerAscii initialState (List.range 11) oneLogEach).1 ∧
    (fetchLogsFallback lowerAscii initialState (List.range 11) oneLogEach).1.length = 10 := by
  refine ⟨rfl, by decide, ?_, ?_⟩
  · intro hmem
    rw [(history_fallback_first_ten lowerAscii initialState (List.range 11) oneLogEach
      rfl rfl).2] at hmem
    obtain ⟨c, hc, logs, hlogs, hlog⟩ := hmem
    have hc10 : c < 10 := by
      have : c ∈ List.range 10 := by
        have h10 : (List.range 11).take 10 = List.range 10 := by decide
        rw [h10] at hc
        exact hc
      exact List.mem_range.mp this
    simp only [oneLogEach, Option.some.injEq] at hlogs
    subst hlogs
    have heq : sampleLog "only" 10 = sampleLog "only" (c : Int) := by simpa using hlog
    have hts : (10 : Int) = (c : Int) := congrArg HistoryLog.createdAt heq
    omega
  · have h := fetchLogsFallback_initial_length lowerAscii 1 (List.range 11) oneLogEach
    have h2 : (collectLogs (List.range 11) oneLogEach).length = 10 := by decide
    exact h.trans h2

/-! ## The stock page claims -/

/-- C16 (the low-stock conditions compared): for a component with quantity
`≥ 0` and threshold `≥ 0`, the condition of `/stats` is `lowStockState`; the
retention filter of the LowStock page is the `isLowStock` flag or
`lowStockState`, and is `lowStockState` when the flag is not set; the "Low
Stock Items" count takes the low-stock components other than those with
quantity 0, which the "Critical Items" count takes, so the two counts together
are `lowStockState`.  A component with quantity = threshold is counted by
`/stats`, kept by the filter and counted by one of the two summary counts; a
component with quantity 0 is counted by `/stats`, kept by the filter and
counted under "Critical Items", not under "Low Stock Items". -/
theorem low_stock_conditions_compared (c : ComponentView) (hq : 0 ≤ c.quantity)
    (ht : 0 ≤ c.critical_low_threshold) :
    statsLowStock c = lowStockState c.quantity c.critical_low_threshold ∧
    retainsLowStock c
      = (c.isLowStock || lowStockState c.quantity c.critical_low_threshold) ∧
    (c.isLowStock = false →
      retainsLowStock c = lowStockState c.quantity c.critical_low_threshold) ∧
    isLowStockItem c
      = (lowStockState c.quantity c.critical_low_threshold && !isCriticalItem c) ∧
    (isCriticalItem c || isLowStockItem c)
      = lowStockState c.quantity c.critical_low_threshold ∧
    (c.quantity = c.critical_low_threshold →
      statsLowStock c = true ∧ retainsLowStock c = true ∧
      (isCriticalItem c || isLowStockItem c) = true) ∧
    (c.quantity = 0 →
      statsLowStock c = true ∧ retainsLowStock c = true ∧
      isCriticalItem c = true ∧ isLowStockItem c = false) := by
  have hstats : statsLowStock c = lowStockState c.quantity c.critical_low_threshold := rfl
  have hretain : retainsLowStock c
      = (c.isLowStock || lowStockState c.quantity c.critical_low_threshold) := rfl
  have hitem : isLowStockItem c
      = (lowStockState c.quantity c.critical_low_threshold && !isCriticalItem c) := by
    unfold isLowStockItem lowStockState isCriticalItem
    rw [Bool.eq_iff_iff]
    simp only [Bool.and_eq_true, Bool.not_eq_true', beq_eq_false_iff_ne, ne_eq,
      decide_eq_true_iff]
    constructor
    · rintro ⟨hpos, hle⟩
      exact ⟨hle, by omega⟩
    · rintro ⟨hle, hne⟩
      exact ⟨by omega, hle⟩
  have hsum : (isCriticalItem c || isLowStockItem c)
      = lowStockState c.quantity c.critical_low_threshold := by
    unfold isCriticalItem isLowStockItem lowStockState
    rw [Bool.eq_iff_iff]
    simp only [Bool.or_eq_true, Bool.and_eq_true, beq_iff_eq, decide_eq_true_iff]
    constructor
    · rintro (h0 | ⟨_, hle⟩)
      · rw [h0]; exact ht
      · exact hle
    · intro hle
      by_cases h0 : c.quantity = 0
      · exact Or.inl h0
      · exact Or.inr ⟨by omega, hle⟩
  refine ⟨hstats, hretain, ?_, hitem, hsum, ?_, ?_⟩
  · intro hf
    rw [hretain, hf, Bool.false_or]
  · intro heq
    have hlow : lowStockState c.quantity c.critical_low_threshold = true := by
      simp [lowStockState, heq]
    refine ⟨hstats.trans hlow, ?_, hsum.trans hlow⟩
    rw [hretain, hlow, Bool.or_true]
  · intro h0
    have hlow : lowStockState c.quantity c.critical_low_threshold = true := by
      simp [lowStockState, h0, ht]
    refine ⟨hstats.trans hlow, ?_, ?_, ?_⟩
    · rw [hretain, hlow, Bool.or_true]
    · simp [isCriticalItem, h0]
    · simp [isLowStockItem, h0]

theorem low_stock_conditions_compared_witness :
    (0 : Int) ≤ 5 ∧ (0 : Int) ≤ 0 ∧ (0 : Int) ≤ 10 ∧
    (statsLowStock ⟨3, 5, 5, true⟩ = true ∧ retainsLowStock ⟨3, 5, 5, true⟩ = true ∧
      (isCriticalItem ⟨3, 5, 5, true⟩ || isLowStockItem ⟨3, 5, 5, true⟩) = true) ∧
    (statsLowStock ⟨1, 0, 10, true⟩ = true ∧ retainsLowStock ⟨1, 0, 10, true⟩ = true ∧
      isCriticalItem ⟨1, 0, 10, true⟩ = true ∧ isLowStockItem ⟨1, 0, 10, true⟩ = false) :=
  ⟨by decide, by decide, by decide,
   (low_stock_conditions_compared ⟨3, 5, 5, true⟩ (by decide) (by decide)).2.2.2.2.2.1 rfl,
   (low_stock_conditions_compared ⟨1, 0, 10, true⟩ (by decide) (by decide)).2.2.2.2.2.2 rfl⟩

/-- C16, counterexample: two of the conditions do not agree with
`lowStockState`.  A component with quantity 0 and threshold 10 is in low-stock
state, but the "Low Stock Items" condition is false on it; a component with
quantity 13, threshold 5 and the `isLowStock` flag set is not in low-stock
state, but the retention filter keeps it. -/
theorem low_stock_conditions_disagree :
    lowStockState 0 10 = true ∧ isLowStockItem ⟨1, 0, 10, true⟩ = false ∧
    lowStockState 13 5 = false ∧ retainsLowStock ⟨1, 13, 5, true⟩ = true ∧
    statsLowStock ⟨1, 13, 5, true⟩ = false := by
  decide

/-- C17 (out of stock is a sub-state of low stock): `getStockStatus` returns one
of the three labels, which are pairwise different; it returns 'Out of Stock'
exactly when the quantity is 0; and a component it labels 'Out of Stock', the
threshold being `≥ 0`, is in low-stock state and shows the stock alert, with
the text 'Out of stock'. -/
theorem out_of_stock_is_low_stock (c : ComponentView)
    (ht : 0 ≤ c.critical_low_threshold) :
    ((getStockStatus c).text = "Out of Stock" ∨ (getStockStatus c).text = "Low Stock" ∨
      (getStockStatus c).text = "In Stock") ∧
    ("Out of Stock" ≠ "Low Stock" ∧ "Out of Stock" ≠ "In Stock" ∧ "Low Stock" ≠ "In Stock") ∧
    ((getStockStatus c).text = "Out of Stock" ↔ c.quantity = 0) ∧
    ((getStockStatus c).text = "Out of Stock" →
      lowStockState c.quantity c.critical_low_threshold = true ∧
      showsStockAlert c = true ∧ stockAlertText c = "Out of stock") := by
  have hiff : (getStockStatus c).text = "Out of Stock" ↔ c.quantity = 0 := by
    unfold getStockStatus
    by_cases h0 : c.quantity = 0
    · simp [h0]
    · cases hf : c.isLowStock <;> simp [h0]
  refine ⟨?_, by decide, hiff, ?_⟩
  · unfold getStockStatus
    by_cases h0 : c.quantity = 0
    · simp [h0]
    · cases hf : c.isLowStock <;> simp [h0]
  · intro hout
    have h0 := hiff.mp hout
    refine ⟨?_, ?_, ?_⟩
    · simp [lowStockState, h0, ht]
    · simp [showsStockAlert, h0]
    · simp [stockAlertText, h0]

theorem out_of_stock_is_low_stock_witness :
    (0 : Int) ≤ 10 ∧
    (getStockStatus ⟨1, 0, 10, false⟩).text = "Out of Stock" ∧
    lowStockState 0 10 = true ∧
    showsStockAlert ⟨1, 0, 10, false⟩ = true ∧
    stockAlertText ⟨1, 0, 10, false⟩ = "Out of stock" :=
  ⟨by decide, by decide,
   (out_of_stock_is_low_stock ⟨1, 0, 10, false⟩ (by decide)).2.2.2 (by decide)⟩

theorem filter_retains_of_all (l : List ComponentView)
    (h : ∀ x ∈ l, retainsLowStock x = true) : l.filter retainsLowStock = l :=
  List.filter_eq_self.mpr h

theorem map_replace_of_ne (l : List ComponentView) (selectedId : Nat) (c1 : ComponentView)
    (h : ∀ x ∈ l, x.id ≠ selectedId) :
    l.map (fun comp => if comp.id == selectedId then c1 else comp) = l := by
  induction l with
  | nil => rfl
  | cons d ds ih =>
    have hd : (d.id == selectedId) = false := by
      simpa using h d (List.mem_cons_self _ _)
    rw [List.map_cons, ih (fun x hx => h x (List.mem_cons_of_mem _ hx))]
    simp [hd]

/-- The LowStock page after a stock addition, on a list of low-stock
components: let the list be `pre`, the selected component `c`, `post`, with
`_id`s unique and every other listed component kept by the page's retention
filter.  After the server answers
`c1`, the list is `pre`, then `c1` if the filter retains it and nothing
otherwise, then `post`: `c1` stands where `c` stood and is dropped exactly when
it is no longer low stock; the other components are kept, unchanged and in
order; and every component of the new list is again retained by the filter. -/
theorem lowStock_submit_frame (pre post : List ComponentView) (c c1 : ComponentView)
    (hpre : ∀ x ∈ pre, x.id ≠ c.id) (hpost : ∀ x ∈ post, x.id ≠ c.id)
    (hlowpre : ∀ x ∈ pre, retainsLowStock x = true)
    (hlowpost : ∀ x ∈ post, retainsLowStock x = true) :
    LowStock.handleInventorySubmit (pre ++ c :: post) c.id c1
      = pre ++ (if retainsLowStock c1 = true then [c1] else []) ++ post ∧
    (retainsLowStock c1 = true →
      LowStock.handleInventorySubmit (pre ++ c :: post) c.id c1 = pre ++ c1 :: post) ∧
    (retainsLowStock c1 = false →
      LowStock.handleInventorySubmit (pre ++ c :: post) c.id c1 = pre ++ post) ∧
    ((c1.isLowStock = true → c1.quantity ≤ c1.critical_low_threshold) →
      retainsLowStock c1 = lowStockState c1.quantity c1.critical_low_threshold) ∧
    (∀ x ∈ LowStock.handleInventorySubmit (pre ++ c :: post) c.id c1,
      retainsLowStock x = true) := by
  have hmain : LowStock.handleInventorySubmit (pre ++ c :: post) c.id c1
      = pre ++ (if retainsLowStock c1 = true then [c1] else []) ++ post := by
    unfold LowStock.handleInventorySubmit
    rw [List.map_append, List.map_cons, map_replace_of_ne pre c.id c1 hpre,
      map_replace_of_ne post c.id c1 hpost, List.filter_append, List.filter_cons,
      filter_retains_of_all pre hlowpre, filter_retains_of_all post hlowpost]
    by_cases hr : retainsLowStock c1 = true
    · simp [hr]
    · simp [hr]
  refine ⟨hmain, ?_, ?_, ?_, ?_⟩
  · intro hr
    rw [hmain]
    simp [hr]
  · intro hr
    rw [hmain]
    simp [hr]
  · intro hflag
    unfold retainsLowStock lowStockState
    cases hf : c1.isLowStock with
    | false => simp
    | true => simp [hflag hf]
  · intro x hx
    unfold LowStock.handleInventorySubmit at hx
    exact (List.mem_filter.mp hx).2

theorem lowStock_submit_frame_example :
    (∀ x ∈ [(⟨1, 0, 10, true⟩ : ComponentView)], x.id ≠ 2) ∧
    (∀ x ∈ [(⟨3, 5, 5, true⟩ : ComponentView)], x.id ≠ 2) ∧
    LowStock.handleInventorySubmit exampleLowStock 2 ⟨2, 4, 5, true⟩
      = [⟨1, 0, 10, true⟩, ⟨2, 4, 5, true⟩, ⟨3, 5, 5, true⟩] ∧
    LowStock.handleInventorySubmit exampleLowStock 2 ⟨2, 13, 5, false⟩
      = [⟨1, 0, 10, true⟩, ⟨3, 5, 5, true⟩] :=
  ⟨by decide, by decide,
   (lowStock_submit_frame [⟨1, 0, 10, true⟩] [⟨3, 5, 5, true⟩] ⟨2, 3, 5, true⟩
     ⟨2, 4, 5, true⟩ (by decide) (by decide) (by decide) (by decide)).2.1 (by decide),
   (lowStock_submit_frame [⟨1, 0, 10, true⟩] [⟨3, 5, 5, true⟩] ⟨2, 3, 5, true⟩
     ⟨2, 13, 5, false⟩ (by decide) (by decide) (by decide) (by decide)).2.2.1 (by decide)⟩

/-! ## The public categories route -/

theorem categoriesWithCounts_names (categories : List String)
    (categoryCounts : List (String × Nat)) :
    (categoriesWithCounts categories categoryCounts).map CategoryEntry.name = categories := by
  unfold categoriesWithCounts
  rw [List.map_map]
  conv_rhs => rw [← List.map_id categories]
  apply List.map_congr_left
  intro category _
  simp only [Function.comp]
  cases categoryCounts.find? (fun item => item.1 == category) <;> rfl

/-- Every entry of the response carries a category of the list and the count
that `find` gives for it. -/
theorem mem_categoriesWithCounts (categories : List String)
    (categoryCounts : List (String × Nat)) (e : CategoryEntry)
    (he : e ∈ categoriesWithCounts categories categoryCounts) :
    e.name ∈ categories ∧
    ((∃ row, categoryCounts.find? (fun item => item.1 == e.name) = some row ∧
        e.count = row.2) ∨
      (categoryCounts.find? (fun item => item.1 == e.name) = none ∧ e.count = 0)) := by
  unfold categoriesWithCounts at he
  obtain ⟨category, hcat, heq⟩ := List.mem_map.mp he
  cases hfind : categoryCounts.find? (fun item => item.1 == category) with
  | none =>
    rw [hfind] at heq
    subst heq
    exact ⟨hcat, Or.inr ⟨hfind, rfl⟩⟩
  | some row =>
    rw [hfind] at heq
    subst heq
    exact ⟨hcat, Or.inl ⟨row, hfind, rfl⟩⟩

theorem sum_count_of_nodup (categories docs : List String) (hdistinct : categories.Nodup)
    (hcat : ∀ c, c ∈ categories ↔ c ∈ docs) :
    (categories.map (fun c => docs.count c)).sum = docs.length := by
  have hperm : List.Perm categories docs.dedup :=
    (List.perm_ext_iff_of_nodup hdistinct (List.nodup_dedup docs)).mpr
      (fun c => by rw [hcat c, List.mem_dedup])
  rw [(hperm.map (fun c => docs.count c)).sum_eq]
  exact List.sum_map_count_dedup_eq_length docs

/-- C19 (public categories route): for a list of distinct categories and an
aggregate with one row per `_id`, the response lists the categories in the same
order, one entry each; the count of an entry is the count of the aggregate's
row for its category, and 0 when the aggregate has no such row; and when the
categories are the distinct categories of the component documents and the
aggregate has, for every category, a row counting the documents of that
category, the counts of the response add up to the number of documents. -/
theorem categories_response (categories : List String)
    (categoryCounts : List (String × Nat)) (docs : List String)
    (hdistinct : categories.Nodup) (hrows : (categoryCounts.map Prod.fst).Nodup) :
    (categoriesWithCounts categories categoryCounts).map CategoryEntry.name = categories ∧
    ((categoriesWithCounts categories categoryCounts).map CategoryEntry.name).Nodup ∧
    (∀ e ∈ categoriesWithCounts categories categoryCounts, ∀ n,
      (e.name, n) ∈ categoryCounts → e.count = n) ∧
    (∀ e ∈ categoriesWithCounts categories categoryCounts,
      (∀ n, (e.name, n) ∉ categoryCounts) → e.count = 0) ∧
    ((∀ c, c ∈ categories ↔ c ∈ docs) →
      (∀ c ∈ categories, ∃ row ∈ categoryCounts, row.1 = c) →
      (∀ row ∈ categoryCounts, row.2 = docs.count row.1) →
      ((categoriesWithCounts categories categoryCounts).map CategoryEntry.count).sum
        = docs.length) := by
  have hnames := categoriesWithCounts_names categories categoryCounts
  refine ⟨hnames, by rw [hnames]; exact hdistinct, ?_, ?_, ?_⟩
  · intro e he n hn
    rcases (mem_categoriesWithCounts categories categoryCounts e he).2 with
      ⟨row, hfind, hcount⟩ | ⟨hnone, _⟩
    · have hrow_mem : row ∈ categoryCounts := List.mem_of_find?_eq_some hfind
      have hrow_key : row.1 = e.name := by simpa using List.find?_some hfind
      have hsame : row = (e.name, n) :=
        List.inj_on_of_nodup_map hrows hrow_mem hn hrow_key
      rw [hcount, hsame]
    · have := List.find?_eq_none.mp hnone (e.name, n) hn
      simp at this
  · intro e he hno
    rcases (mem_categoriesWithCounts categories categoryCounts e he).2 with
      ⟨row, hfind, _⟩ | ⟨_, hzero⟩
    · have hrow_mem : row ∈ categoryCounts := List.mem_of_find?_eq_some hfind
      have hrow_key : row.1 = e.name := by simpa using List.find?_some hfind
      exact absurd (by rw [← hrow_key]; exact hrow_mem) (hno row.2)
    · exact hzero
  · intro hcat hcover hcount
    have hmap : (categoriesWithCounts categories categoryCounts).map CategoryEntry.count
        = categories.map (fun c => docs.count c) := by
      unfold categoriesWithCounts
      rw [List.map_map]
      apply List.map_congr_left
      intro category hmem
      simp only [Function.comp]
      cases hfind : categoryCounts.find? (fun item => item.1 == category) with
      | none =>
        obtain ⟨row, hrow, hkey⟩ := hcover category hmem
        have := List.find?_eq_none.mp hfind row hrow
        simp [hkey] at this
      | some row =>
        have hrow_mem : row ∈ categoryCounts := List.mem_of_find?_eq_some hfind
        have hrow_key : row.1 = category := by simpa using List.find?_some hfind
        show row.2 = docs.count category
        rw [hcount row hrow_mem, hrow_key]
    rw [hmap]
    exact sum_count_of_nodup categories docs hdistinct hcat

theorem categories_response_witness :
    ["ICs", "Resistors"].Nodup ∧
    ([("ICs", 2), ("Resistors", 1)].map Prod.fst).Nodup ∧
    categoriesWithCounts ["ICs", "Resistors", "Tools"] [("ICs", 2), ("Resistors", 1)]
      = [⟨"ICs", 2⟩, ⟨"Resistors", 1⟩, ⟨"Tools", 0⟩] ∧
    ((categoriesWithCounts ["ICs", "Resistors"]
        [("ICs", 2), ("Resistors", 1)]).map CategoryEntry.count).sum
      = ["ICs", "Resistors", "ICs"].length :=
  ⟨by decide, by decide, by decide,
   (categories_response ["ICs", "Resistors"] [("ICs", 2), ("Resistors", 1)]
     ["ICs", "Resistors", "ICs"] (by decide) (by decide)).2.2.2.2
     (by intro c; simp; tauto) (by decide) (by decide)⟩

/-! ## ManageStock submit, summary counts and roles -/

/-- C21 (ManageStock page after a submit): when the ledger call answers a
component, the list keeps its length, and at every position the entry is the
server's component if the old entry has the selected `_id` and the old entry
otherwise, so order is kept and every other entry is unchanged; when the call
fails, or no component is selected, the list is exactly as it was. -/
theorem manageStock_submit_frame (prev : List ComponentView) (selected : ComponentView)
    (inventoryAction : InventoryAction)
    (service : InventoryAction → Nat → Except String ComponentView) :
    (∀ response, service inventoryAction selected.id = Except.ok response →
      (ManageStock.handleInventorySubmit prev (some selected) inventoryAction service).length
        = prev.length ∧
      (∀ (i : Nat) (comp : ComponentView), prev[i]? = some comp →
        (ManageStock.handleInventorySubmit prev (some selected) inventoryAction service)[i]?
          = some (if comp.id = selected.id then response else comp))) ∧
    (∀ e, service inventoryAction selected.id = Except.error e →
      ManageStock.handleInventorySubmit prev (some selected) inventoryAction service = prev) ∧
    ManageStock.handleInventorySubmit prev none inventoryAction service = prev := by
  refine ⟨?_, ?_, rfl⟩
  · intro response hok
    simp only [ManageStock.handleInventorySubmit, hok]
    refine ⟨List.length_map _ _, ?_⟩
    intro i comp hcomp
    rw [List.getElem?_map, hcomp]
    by_cases hid : comp.id = selected.id
    · simp [hid]
    · simp [hid]
  · intro e herr
    simp only [ManageStock.handleInventorySubmit, herr]

theorem manageStock_submit_frame_witness :
    ManageStock.handleInventorySubmit exampleLowStock (some ⟨2, 3, 5, true⟩)
        InventoryAction.outward (fun _ _ => Except.ok ⟨2, 1, 5, true⟩)
      = [⟨1, 0, 10, true⟩, ⟨2, 1, 5, true⟩, ⟨3, 5, 5, true⟩] ∧
    (ManageStock.handleInventorySubmit exampleLowStock (some ⟨2, 3, 5, true⟩)
        InventoryAction.outward (fun _ _ => Except.ok ⟨2, 1, 5, true⟩)).length
      = exampleLowStock.length ∧
    ManageStock.handleInventorySubmit exampleLowStock (some ⟨2, 3, 5, true⟩)
        InventoryAction.outward (fun _ _ => Except.error "Insufficient stock")
      = exampleLowStock :=
  ⟨by decide,
   ((manageStock_submit_frame exampleLowStock ⟨2, 3, 5, true⟩ InventoryAction.outward
      (fun _ _ => Except.ok ⟨2, 1, 5, true⟩)).1 ⟨2, 1, 5, true⟩ rfl).1,
   (manageStock_submit_frame exampleLowStock ⟨2, 3, 5, true⟩ InventoryAction.outward
      (fun _ _ => Except.error "Insufficient stock")).2.1 "Insufficient stock" rfl⟩

/-- C26 (summary counts partition the list): for a list of components each
with `0 ≤ quantity ≤ critical_low_threshold`, the "Critical Items" count plus
the "Low Stock Items" count is the length of the list, and no component meets
both conditions. -/
theorem summary_counts_partition (components : List ComponentView)
    (h : ∀ c ∈ components, 0 ≤ c.quantity ∧ c.quantity ≤ c.critical_low_threshold) :
    criticalItemsCount components + lowStockItemsCount components = components.length ∧
    (∀ c : ComponentView, ¬ (isCriticalItem c = true ∧ isLowStockItem c = true)) := by
  constructor
  · unfold criticalItemsCount lowStockItemsCount
    induction components with
    | nil => rfl
    | cons d ds ih =>
      have hd := h d (List.mem_cons_self _ _)
      have ih2 := ih (fun c hc => h c (List.mem_cons_of_mem _ hc))
      by_cases h0 : d.quantity = 0
      · have hc : isCriticalItem d = true := by simp [isCriticalItem, h0]
        have hl : isLowStockItem d = false := by simp [isLowStockItem, h0]
        simp only [List.filter_cons, hc, hl, if_true, List.length_cons]
        simp only [Bool.false_eq_true, if_false]
        omega
      · have hc : isCriticalItem d = false := by simp [isCriticalItem, h0]
        have hpos : d.quantity > 0 := by omega
        have hl : isLowStockItem d = true := by simp [isLowStockItem, hpos, hd.2]
        simp only [List.filter_cons, hc, hl, if_true, List.length_cons]
        simp only [Bool.false_eq_true, if_false]
        omega
  · intro c hboth
    obtain ⟨hc, hl⟩ := hboth
    have h0 : c.quantity = 0 := by simpa [isCriticalItem] using hc
    simp [isLowStockItem, h0] at hl

theorem summary_counts_partition_witness :
    (∀ c ∈ exampleLowStock, 0 ≤ c.quantity ∧ c.quantity ≤ c.critical_low_threshold) ∧
    criticalItemsCount exampleLowStock = 1 ∧ lowStockItemsCount exampleLowStock = 2 ∧
    criticalItemsCount exampleLowStock + lowStockItemsCount exampleLowStock
      = exampleLowStock.length :=
  ⟨by decide, by decide, by decide,
   (summary_counts_partition exampleLowStock (by decide)).1⟩

/-- C25 (role capabilities are nested): for every user, present or not,
`canAdjust` implies `canInward` and `canInward` implies `canOutward`; the role
Admin has all three, Lab Technician has inward and outward only, Engineer has
outward only, every other role and no user have none; and `canAddStock` of
the LowStock page equals `canInward`. -/
theorem role_capabilities_nested (user : Option User) :
    (canAdjust user = true → canInward user = true) ∧
    (canInward user = true → canOutward user = true) ∧
    canAddStock user = canInward user ∧
    (roleOf user = some "Admin" →
      canInward user = true ∧ canOutward user = true ∧ canAdjust user = true) ∧
    (roleOf user = some "Lab Technician" →
      canInward user = true ∧ canOutward user = true ∧ canAdjust user = false) ∧
    (roleOf user = some "Engineer" →
      canInward user = false ∧ canOutward user = true ∧ canAdjust user = false) ∧
    (roleOf user ≠ some "Admin" → roleOf user ≠ some "Lab Technician" →
      roleOf user ≠ some "Engineer" →
      canInward user = false ∧ canOutward user = false ∧ canAdjust user = false) := by
  refine ⟨?_, ?_, rfl, ?_, ?_, ?_, ?_⟩
  · intro h
    simp only [canAdjust, beq_iff_eq] at h
    simp [canInward, h]
  · intro h
    simp only [canInward, Bool.or_eq_true, beq_iff_eq] at h
    rcases h with h | h <;> simp [canOutward, h]
  · intro h
    simp [canInward, canOutward, canAdjust, h]
  · intro h
    simp [canInward, canOutward, canAdjust, h]
  · intro h
    simp [canInward, canOutward, canAdjust, h]
  · intro h1 h2 h3
    simp [canInward, canOutward, canAdjust, h1, h2, h3]

theorem role_capabilities_nested_witness :
    roleOf (userWithRole "Engineer") = some "Engineer" ∧
    (canInward (userWithRole "Engineer") = false ∧
      canOutward (userWithRole "Engineer") = true ∧
      canAdjust (userWithRole "Engineer") = false) ∧
    (canInward (userWithRole "Lab Technician") = true ∧
      canOutward (userWithRole "Lab Technician") = true ∧
      canAdjust (userWithRole "Lab Technician") = false) ∧
    (canInward none = false ∧ canOutward none = false ∧ canAdjust none = false) :=
  ⟨by decide,
   (role_capabilities_nested (userWithRole "Engineer")).2.2.2.2.2.1 (by decide),
   (role_capabilities_nested (userWithRole "Lab Technician")).2.2.2.2.1 (by decide),
   (role_capabilities_nested none).2.2.2.2.2.2 (by decide) (by decide) (by decide)⟩

/-! ## Route guards and auth context -/

/-- C22 (route guards): `ProtectedRoute` renders its children exactly when
`loading` is false and a user is present, and navigates to `/login` when
`loading` is false and no user is present; `PublicRoute` renders its children
exactly when `loading` is false and no user is present; so with `loading`
false exactly one of the two renders its children, and while loading both show
the spinner and neither renders its children. -/
theorem route_guards (user : Option User) (loading : Bool) :
    (ProtectedRoute user loading = Rendered.children ↔ loading = false ∧ user ≠ none) ∧
    (loading = false → user = none → ProtectedRoute user loading = Rendered.navigate "/login") ∧
    (PublicRoute user loading = Rendered.children ↔ loading = false ∧ user = none) ∧
    (loading = false →
      (ProtectedRoute user loading = Rendered.children ∧
        PublicRoute user loading ≠ Rendered.children) ∨
      (ProtectedRoute user loading ≠ Rendered.children ∧
        PublicRoute user loading = Rendered.children)) ∧
    (loading = true →
      ProtectedRoute user loading = Rendered.loadingSpinner ∧
      PublicRoute user loading = Rendered.loadingSpinner ∧
      ProtectedRoute user loading ≠ Rendered.children ∧
      PublicRoute user loading ≠ Rendered.children) := by
  cases loading <;> cases user <;> simp [ProtectedRoute, PublicRoute]

theorem route_guards_witness :
    ProtectedRoute none false = Rendered.navigate "/login" ∧
    (ProtectedRoute (userWithRole "Admin") true = Rendered.loadingSpinner ∧
      PublicRoute (userWithRole "Admin") true = Rendered.loadingSpinner ∧
      ProtectedRoute (userWithRole "Admin") true ≠ Rendered.children ∧
      PublicRoute (userWithRole "Admin") true ≠ Rendered.children) ∧
    ProtectedRoute (userWithRole "Admin") false = Rendered.children ∧
    PublicRoute none false = Rendered.children :=
  ⟨(route_guards none false).2.1 rfl rfl,
   (route_guards (userWithRole "Admin") true).2.2.2.2 rfl,
   by decide, by decide⟩

/-- C23 (auth state), the code at the failing input: the provider mounts with
a stored token and the profile request fails with any error; when
`initializeAuth` has finished, `loading` is false, the token is removed from
storage, the header is cleared and the user is null, but the token of the
context is still the stored token, so the invariant does not hold.  After
`logout` user and token are both null. -/
theorem initializeAuth_keeps_rejected_token (error : String) :
    (initializeAuth (mountedWorld (some "stale-token")) (Except.error error)).loading = false ∧
    (initializeAuth (mountedWorld (some "stale-token")) (Except.error error)).storedToken
      = none ∧
    (initializeAuth (mountedWorld (some "stale-token")) (Except.error error)).authorization
      = none ∧
    (initializeAuth (mountedWorld (some "stale-token")) (Except.error error)).user = none ∧
    (initializeAuth (mountedWorld (some "stale-token")) (Except.error error)).token
      = some "stale-token" ∧
    ¬ AuthInvariant (initializeAuth (mountedWorld (some "stale-token")) (Except.error error)) ∧
    (logout (initializeAuth (mountedWorld (some "stale-token")) (Except.error error))).user
      = none ∧
    (logout (initializeAuth (mountedWorld (some "stale-token")) (Except.error error))).token
      = none := by
  refine ⟨rfl, rfl, rfl, rfl, rfl, ?_, rfl, rfl⟩
  intro hinv
  have h : (some "stale-token" : Option String) = none := hinv rfl rfl
  exact Option.noConfusion h

/-- C24 (login and the console), the code at the failing input: the first line
`login` writes to the console carries the password, whatever the server
answers; two runs with the same email and the same server answer but the
passwords "hunter2" and "letmein" write different console text. -/
theorem login_console_shows_password (w : AuthWorld) (email password : String)
    (response : Except LoginError (String × User)) :
    (⟨false, [ConsoleArg.text "🔑 Attempting login with:", ConsoleArg.text email,
        ConsoleArg.text password]⟩ : ConsoleLine) ∈ (login w email password response).1.console ∧
    (login (mountedWorld none) "asha@lab.org" "hunter2"
        (Except.error ⟨"Request failed with status code 401", none⟩)).1.console
      ≠ (login (mountedWorld none) "asha@lab.org" "letmein"
        (Except.error ⟨"Request failed with status code 401", none⟩)).1.console := by
  constructor
  · cases response with
    | error e => simp [login]
    | ok r =>
      obtain ⟨newToken, userData⟩ := r
      simp [login]
  · decide

/-- C20 (LowStock page after a stock addition), the code at the failing input:
the list holds component 1 (quantity 20, threshold 10, flag not set) and
component 2 (quantity 3, threshold 5); stock is added to component 2 and the
server answers it with quantity 4.  Component 2 is replaced in place, but the
filter runs over the whole list and removes component 1, which was not
selected and not changed. -/
theorem lowStock_submit_removes_unselected :
    LowStock.handleInventorySubmit [⟨1, 20, 10, false⟩, ⟨2, 3, 5, true⟩] 2 ⟨2, 4, 5, true⟩
      = [⟨2, 4, 5, true⟩] ∧
    (⟨1, 20, 10, false⟩ : ComponentView).id ≠ 2 ∧
    (⟨1, 20, 10, false⟩ : ComponentView) ∉
      LowStock.handleInventorySubmit [⟨1, 20, 10, false⟩, ⟨2, 3, 5, true⟩] 2
        ⟨2, 4, 5, true⟩ ∧
    retainsLowStock ⟨2, 4, 5, true⟩ = true := by
  decide

end Inventory
